import Mathlib

/-!
# Token registry and transaction derivations of `go-primitives` (package `types`)

A shallow embedding of the token registry of `types/token.go`: the
classification tags, the enumeration `GetTokenTypes`, the chain→tag classifiers
`GetTokenType` and `GetEthereumTokenTypeByIndex`, the tag→version table
`GetTokenVersion` and the tag parser `ParseTokenTypeFromString`; and of the
transaction derivations of `types/tx.go` (`cleanMemo`, `GetAddresses`,
`GetDirection`, `GetUTXOValueFor`), which are known through `types/tx_test.go`
and the specification.

Conventions of the embedding.

* A Go `string` is a Lean `String`; Go's `len` counts the bytes of the UTF-8
  text (`len`, `bytes` below), and `==` on strings is equality of texts.
* A Go `uint` chain identifier is a `Nat` (no arithmetic is done on it).
* A Go result pair `(v, err)` is a Lean pair `(v, e)` with `e : Option _`,
  `none` standing for the `nil` error.
* A Go `switch` on a value is a chain of `if … else if …` in source order.
-/

namespace types

/-! ## Go strings -/

/-- The bytes of a Go string: the UTF-8 encoding of the text, byte by byte. -/
def bytes (s : String) : List Nat :=
  s.data.flatMap (fun c => (String.utf8EncodeChar c).map UInt8.toNat)

/-- Go's builtin `len` on a string: the number of bytes. -/
def len (s : String) : Nat := (bytes s).length

/-! ## Errors -/

/-- The two sentinel errors declared at `token.go:12-13`. -/
inductive Sentinel where
  | ErrUnknownTokenType
  | errTokenVersionNotImplemented
deriving DecidableEq, Repr

/-- The text of a sentinel error (`errors.New(...)`). -/
def Sentinel.text : Sentinel → String
  | .ErrUnknownTokenType => "unknown token type"
  | .errTokenVersionNotImplemented => "token version not implemented"

/-- A Go `error` built by `fmt.Errorf`: its message and the sentinel it wraps
through `%w`, if any. -/
structure GoError where
  msg : String
  wraps : Option Sentinel
deriving DecidableEq, Repr

/-- The error built by `fmt.Errorf("%s: %w", subject, sentinel)`. -/
def wrapf (subject : String) (sentinel : Sentinel) : GoError :=
  ⟨subject ++ ": " ++ sentinel.text, some sentinel⟩

/-! ## `strconv.Atoi` (Go standard library, 64-bit `int`) -/

/-- The error kinds of `strconv` (`ErrSyntax`, `ErrRange`). -/
inductive NumErr where
  | ErrSyntax
  | ErrRange
deriving DecidableEq, Repr

/-- The constant `strconv.IntSize` on a 64-bit platform. -/
def intSize : Nat := 64

/-- The digit loop of `strconv.ParseUint` for base 10: every byte must be an
ASCII digit, and the accumulated `uint64` must stay at most `maxVal`. -/
def parseUintLoop (maxVal cutoff : Nat) : List Nat → Nat → Nat × Option NumErr
  | [], n => (n, none)
  | c :: rest, n =>
    if 48 ≤ c ∧ c ≤ 57 then
      if n ≥ cutoff then (maxVal, some .ErrRange)
      else
        let n10 := (n * 10) % 2 ^ 64
        let n1 := (n10 + (c - 48)) % 2 ^ 64
        if n1 < n10 ∨ n1 > maxVal then (maxVal, some .ErrRange)
        else parseUintLoop maxVal cutoff rest n1
    else (0, some .ErrSyntax)

/-- The call `strconv.ParseUint(s, 10, 0)` on the bytes of `s`. -/
def ParseUint (s : List Nat) : Nat × Option NumErr :=
  if s = [] then (0, some .ErrSyntax)
  else parseUintLoop (2 ^ intSize - 1) ((2 ^ 64 - 1) / 10 + 1) s 0

/-- The call `strconv.ParseInt(s, 10, 0)` on the bytes of `s0`. -/
def ParseInt (s0 : List Nat) : Int × Option NumErr :=
  match s0 with
  | [] => (0, some .ErrSyntax)
  | c :: rest =>
    let neg : Bool := c = 45
    let s := if c = 43 ∨ c = 45 then rest else s0
    match ParseUint s with
    | (_, some .ErrSyntax) => (0, some .ErrSyntax)
    | (un, _) =>
      let cutoff := 2 ^ (intSize - 1)
      if !neg ∧ un ≥ cutoff then ((cutoff : Int) - 1, some .ErrRange)
      else if neg ∧ un > cutoff then (-(cutoff : Int), some .ErrRange)
      else if neg then (-(un : Int), none) else ((un : Int), none)

/-- The fast path loop of `strconv.Atoi`: `ch -= '0'` in byte arithmetic, a
syntax error when the result exceeds 9. -/
def atoiFastLoop : List Nat → Int → Option Int
  | [], n => some n
  | ch :: rest, n =>
    let d := (ch + 256 - 48) % 256
    if d > 9 then none else atoiFastLoop rest (n * 10 + d)

/-- The function `strconv.Atoi`: the fast path for texts of 1 to 18 bytes, `ParseInt`
otherwise. -/
def Atoi (str : String) : Int × Option NumErr :=
  let s0 := bytes str
  if 0 < s0.length ∧ s0.length < 19 then
    let signed : Bool := s0.head? = some 45 ∨ s0.head? = some 43
    let s := if signed then s0.tail else s0
    if signed ∧ s.length < 1 then (0, some .ErrSyntax)
    else
      match atoiFastLoop s 0 with
      | none => (0, some .ErrSyntax)
      | some n => if s0.head? = some 45 then (-n, none) else (n, none)
  else ParseInt s0

/-- The number that the decimal digits `ds` (ASCII bytes, most significant
first) add to the prefix value `n`: the value of the digits of `n` followed by
`ds`. -/
def fromDigits (n : Nat) (ds : List Nat) : Nat :=
  ds.foldl (fun m b => m * 10 + (b - 48)) n

/-- Every byte of `ds` is an ASCII decimal digit. -/
def allDigits (ds : List Nat) : Prop := ∀ b ∈ ds, 48 ≤ b ∧ b ≤ 57

/-- The texts that denote a Go `int`: an optional sign `+` or `-`, then at
least one decimal digit and nothing else, with a value between `-2^63` and
`2^63 - 1`. -/
def IntLiteral (bs : List Nat) : Prop :=
  match bs with
  | [] => False
  | c :: rest =>
    if c = 45 then rest ≠ [] ∧ allDigits rest ∧ fromDigits 0 rest ≤ 2 ^ 63
    else if c = 43 then rest ≠ [] ∧ allDigits rest ∧ fromDigits 0 rest < 2 ^ 63
    else allDigits (c :: rest) ∧ fromDigits 0 (c :: rest) < 2 ^ 63

/-! ## Chain identifiers (package `coin`) -/

/-- The part of package `coin` that `token.go` uses: the predicate `IsEVM` and
the chain identifier constants. Package `coin` is not among the sources, so
its values are parameters of the development. -/
structure CoinPkg where
  IsEVM : Nat → Bool
  BITCOIN : Nat
  TRON : Nat
  TERRA : Nat
  BINANCE : Nat
  WAVES : Nat
  THETA : Nat
  ONTOLOGY : Nat
  NULS : Nat
  VECHAIN : Nat
  NEO : Nat
  EOS : Nat
  SOLANA : Nat
  HECO : Nat
  HARMONY : Nat
  OASIS : Nat
  STELLAR : Nat
  ALGORAND : Nat
  KAVA : Nat
  CELO : Nat
  ELROND : Nat
  EVMOS : Nat
  OKC : Nat
  APTOS : Nat
  TON : Nat
  SUI : Nat
  STRIDE : Nat
  NEUTRON : Nat
  ETHEREUM : Nat
  CLASSIC : Nat
  POA : Nat
  CALLISTO : Nat
  WANCHAIN : Nat
  THUNDERTOKEN : Nat
  GOCHAIN : Nat
  TOMOCHAIN : Nat
  SMARTCHAIN : Nat
  POLYGON : Nat
  OPTIMISM : Nat
  XDAI : Nat
  AVALANCHEC : Nat
  FANTOM : Nat
  RONIN : Nat
  CRONOS : Nat
  KCC : Nat
  AURORA : Nat
  ARBITRUM : Nat
  KAVAEVM : Nat
  METER : Nat
  MOONBEAM : Nat
  KLAYTN : Nat
  METIS : Nat
  MOONRIVER : Nat
  BOBA : Nat
  POLYGONZKEVM : Nat
  ZKSYNC : Nat

/-! ## Classification tags and version tags (`token.go:15-112`) -/

/-- The type `TokenType`, declared as `type TokenType string`. -/
abbrev TokenType := String

/-- The type `TokenVersion`, declared as `type TokenVersion int`. -/
abbrev TokenVersion := Int

def Coin : TokenType := "coin"
def Gas : TokenType := "gas"
def BRC20 : TokenType := "BRC20"
def ERC20 : TokenType := "ERC20"
def ERC721 : TokenType := "ERC721"
def ERC1155 : TokenType := "ERC1155"
def BEP2 : TokenType := "BEP2"
def BEP8 : TokenType := "BEP8"
def BEP20 : TokenType := "BEP20"
def TRC10 : TokenType := "TRC10"
def ETC20 : TokenType := "ETC20"
def POA20 : TokenType := "POA20"
def TRC20 : TokenType := "TRC20"
def TRC21 : TokenType := "TRC21"
def CLO20 : TokenType := "CLO20"
def GO20 : TokenType := "GO20"
def WAN20 : TokenType := "WAN20"
def TT20 : TokenType := "TT20"
def KAVA : TokenType := "KAVA"
def SPL : TokenType := "SPL"
def POLYGON : TokenType := "POLYGON"
def OPTIMISM : TokenType := "OPTIMISM"
def XDAI : TokenType := "XDAI"
def AVALANCHE : TokenType := "AVALANCHE"
def FANTOM : TokenType := "FANTOM"
def HRC20 : TokenType := "HRC20"
def ARBITRUM : TokenType := "ARBITRUM"
def TERRA : TokenType := "TERRA"
def RONIN : TokenType := "RONIN"
def EOS : TokenType := "EOS"
def NEP5 : TokenType := "NEP5"
def NRC20 : TokenType := "NRC20"
def VET : TokenType := "VET"
def ONTOLOGY : TokenType := "ONTOLOGY"
def THETA : TokenType := "THETA"
def TOMO : TokenType := "TOMO"
def WAVES : TokenType := "WAVES"
def POA : TokenType := "POA"
def CELO : TokenType := "CELO"
def ESDT : TokenType := "ESDT"
def CW20 : TokenType := "CW20"
def OASIS : TokenType := "OASIS"
def CRC20 : TokenType := "CRC20"
def STELLAR : TokenType := "STELLAR"
def KRC20 : TokenType := "KRC20"
def AURORA : TokenType := "AURORA"
def ALGORAND : TokenType := "ALGORAND"
def KAVAERC20 : TokenType := "KAVAERC20"
def METER : TokenType := "METER"
def EVMOS_ERC20 : TokenType := "EVMOS_ERC20"
def KIP20 : TokenType := "KIP20"
def APTOS : TokenType := "APTOS"
def MOONBEAM : TokenType := "MOONBEAM"
def KLAYTN : TokenType := "KLAYTN"
def METIS : TokenType := "METIS"
def MOONRIVER : TokenType := "MOONRIVER"
def BOBA : TokenType := "BOBA"
def TON : TokenType := "TON"
def POLYGONZKEVM : TokenType := "ZKEVM"
def ZKSYNC : TokenType := "ZKSYNC"
def SUI : TokenType := "SUI"
def STRIDE : TokenType := "STRIDE"
def NEUTRON : TokenType := "NEUTRON"
def FA2 : TokenType := "FA2"

def TokenVersionV0 : TokenVersion := 0
def TokenVersionV1 : TokenVersion := 1
def TokenVersionV3 : TokenVersion := 3
def TokenVersionV4 : TokenVersion := 4
def TokenVersionV5 : TokenVersion := 5
def TokenVersionV6 : TokenVersion := 6
def TokenVersionV7 : TokenVersion := 7
def TokenVersionV8 : TokenVersion := 8
def TokenVersionV9 : TokenVersion := 9
def TokenVersionV10 : TokenVersion := 10
def TokenVersionV11 : TokenVersion := 11
def TokenVersionV12 : TokenVersion := 12
def TokenVersionUndefined : TokenVersion := -1

/-! ## The registry functions (`token.go:114-398`) -/

/-- Function `GetTokenTypes` (`token.go:114-178`): the enumeration of supported tags,
in source order. -/
def GetTokenTypes : List TokenType :=
  [ BRC20, ERC20, ERC721, ERC1155, BEP2, BEP8, BEP20, TRC10, ETC20, POA20,
    TRC20, TRC21, CLO20, GO20, WAN20, TT20, CW20, KAVA, SPL, POLYGON,
    OPTIMISM, XDAI, AVALANCHE, FANTOM, HRC20, ARBITRUM, TERRA, RONIN, EOS,
    NEP5, NRC20, VET, ONTOLOGY, THETA, TOMO, WAVES, POA, CELO, ESDT, OASIS,
    CRC20, STELLAR, KRC20, AURORA, ALGORAND, KAVAERC20, METER, EVMOS_ERC20,
    KIP20, APTOS, MOONBEAM, KLAYTN, METIS, MOONRIVER, BOBA, TON, POLYGONZKEVM,
    ZKSYNC, SUI, STRIDE, NEUTRON ]

/-- Function `ParseTokenTypeFromString` (`token.go:307-314`): the first enumerated tag
whose text equals `t`, or the empty tag with an error wrapping
`ErrUnknownTokenType`. -/
def ParseTokenTypeFromString (t : String) : TokenType × Option GoError :=
  match GetTokenTypes.find? (fun knownTokenType => knownTokenType == t) with
  | some knownTokenType => (knownTokenType, none)
  | none => ("", some (wrapf t .ErrUnknownTokenType))

/-- The `switch parsedTokenType` of `GetTokenVersion` (`token.go:260-304`):
the hand-maintained tag→version table with its `default` branch. -/
def tokenVersionSwitch (parsedTokenType : TokenType) : TokenVersion × Option GoError :=
  if parsedTokenType ∈ [ERC20, BEP2, BEP20, BEP8, ETC20, POA20, CLO20, TRC10, TRC21,
      WAN20, GO20, TT20, WAVES, APTOS] then (TokenVersionV0, none)
  else if parsedTokenType = TRC20 then (TokenVersionV1, none)
  else if parsedTokenType ∈ [SPL, KAVA] then (TokenVersionV3, none)
  else if parsedTokenType = POLYGON then (TokenVersionV4, none)
  else if parsedTokenType ∈ [AVALANCHE, ARBITRUM, FANTOM, HRC20, OPTIMISM, XDAI] then
    (TokenVersionV5, none)
  else if parsedTokenType = TERRA then (TokenVersionV6, none)
  else if parsedTokenType ∈ [CELO, NRC20] then (TokenVersionV7, none)
  else if parsedTokenType = CW20 then (TokenVersionV8, none)
  else if parsedTokenType ∈ [ESDT, CRC20] then (TokenVersionV9, none)
  else if parsedTokenType ∈ [KRC20, STELLAR] then (TokenVersionV10, none)
  else if parsedTokenType ∈ [RONIN, AURORA] then (TokenVersionV11, none)
  else if parsedTokenType ∈ [TON, POLYGONZKEVM, ZKSYNC, SUI] then (TokenVersionV12, none)
  else if parsedTokenType ∈ [BRC20, ERC721, ERC1155, EOS, NEP5, VET, ONTOLOGY, THETA, TOMO,
      POA, OASIS, ALGORAND, KAVAERC20, METER, EVMOS_ERC20, KIP20, MOONBEAM, KLAYTN, METIS,
      MOONRIVER, BOBA, STRIDE, NEUTRON, FA2] then (TokenVersionUndefined, none)
  else
    (TokenVersionUndefined,
      some ⟨"tokenType " ++ parsedTokenType ++ ": " ++
        Sentinel.errTokenVersionNotImplemented.text, some .errTokenVersionNotImplemented⟩)

/-- Function `GetTokenVersion` (`token.go:255-305`): parse the text, pass the parse error
on with `TokenVersionUndefined`, otherwise look the tag up in the table. -/
def GetTokenVersion (tokenType : String) : TokenVersion × Option GoError :=
  match ParseTokenTypeFromString tokenType with
  | (_, some err) => (TokenVersionUndefined, some err)
  | (parsedTokenType, none) => tokenVersionSwitch parsedTokenType

/-- The `switch coinIndex` of `GetEthereumTokenTypeByIndex` (`token.go:317-391`):
the value of the local `tokenType` after the switch; it keeps its zero value,
the empty tag, when no `case` matches. -/
def ethereumTokenTypeSwitch (K : CoinPkg) (coinIndex : Nat) : TokenType :=
    if coinIndex = K.ETHEREUM then ERC20
    else if coinIndex = K.CLASSIC then ETC20
    else if coinIndex = K.POA then POA20
    else if coinIndex = K.CALLISTO then CLO20
    else if coinIndex = K.WANCHAIN then WAN20
    else if coinIndex = K.THUNDERTOKEN then TT20
    else if coinIndex = K.GOCHAIN then GO20
    else if coinIndex = K.TOMOCHAIN then TRC21
    else if coinIndex = K.SMARTCHAIN then BEP20
    else if coinIndex = K.POLYGON then POLYGON
    else if coinIndex = K.OPTIMISM then OPTIMISM
    else if coinIndex = K.XDAI then XDAI
    else if coinIndex = K.AVALANCHEC then AVALANCHE
    else if coinIndex = K.FANTOM then FANTOM
    else if coinIndex = K.HECO then HRC20
    else if coinIndex = K.RONIN then RONIN
    else if coinIndex = K.CELO then CELO
    else if coinIndex = K.CRONOS then CRC20
    else if coinIndex = K.KCC then KRC20
    else if coinIndex = K.AURORA then AURORA
    else if coinIndex = K.ARBITRUM then ARBITRUM
    else if coinIndex = K.KAVAEVM then KAVAERC20
    else if coinIndex = K.METER then METER
    else if coinIndex = K.EVMOS then EVMOS_ERC20
    else if coinIndex = K.OKC then KIP20
    else if coinIndex = K.MOONBEAM then MOONBEAM
    else if coinIndex = K.KLAYTN then KLAYTN
    else if coinIndex = K.METIS then METIS
    else if coinIndex = K.MOONRIVER then MOONRIVER
    else if coinIndex = K.BOBA then BOBA
    else if coinIndex = K.TON then TON
    else if coinIndex = K.POLYGONZKEVM then POLYGONZKEVM
    else if coinIndex = K.ZKSYNC then ZKSYNC
    else if coinIndex = K.SUI then SUI
    else if coinIndex = K.STRIDE then STRIDE
    else if coinIndex = K.NEUTRON then NEUTRON
    else ""

/-- Function `GetEthereumTokenTypeByIndex` (`token.go:316-398`): the coin-index→tag table
of the EVM chains; an index outside the table leaves `tokenType` empty, which
is reported as an error. -/
def GetEthereumTokenTypeByIndex (K : CoinPkg) (coinIndex : Nat) : TokenType × Option GoError :=
  let tokenType : TokenType := ethereumTokenTypeSwitch K coinIndex
  if tokenType = "" then ("", some ⟨"not evm coin " ++ toString coinIndex, none⟩)
  else (tokenType, none)

/-- Function `GetTokenType` (`token.go:180-253`): an EVM chain takes its tag from
`GetEthereumTokenTypeByIndex`; any other chain goes through the `switch`. -/
def GetTokenType (K : CoinPkg) (c : Nat) (tokenID : String) : String × Bool :=
  if K.IsEVM c then
    match GetEthereumTokenTypeByIndex K c with
    | (_, some _) => ("", false)
    | (tokenType, none) => (tokenType, true)
  else if c = K.BITCOIN then (BRC20, true)
  else if c = K.TRON then
    match Atoi tokenID with
    | (_, some _) => (TRC20, true)
    | (_, none) => (TRC10, true)
  else if c = K.TERRA then
    let idSize := len tokenID
    if idSize = 44 then (CW20, true) else (TERRA, true)
  else if c = K.BINANCE then (BEP2, true)
  else if c = K.WAVES then (WAVES, true)
  else if c = K.THETA then (THETA, true)
  else if c = K.ONTOLOGY then (ONTOLOGY, true)
  else if c = K.NULS then (NRC20, true)
  else if c = K.VECHAIN then (VET, true)
  else if c = K.NEO then (NEP5, true)
  else if c = K.EOS then (EOS, true)
  else if c = K.SOLANA then (SPL, true)
  else if c = K.HECO ∨ c = K.HARMONY then (HRC20, true)
  else if c = K.OASIS then (OASIS, true)
  else if c = K.STELLAR then (STELLAR, true)
  else if c = K.ALGORAND then (ALGORAND, true)
  else if c = K.KAVA then (KAVA, true)
  else if c = K.CELO then (CELO, true)
  else if c = K.ELROND then (ESDT, true)
  else if c = K.EVMOS then (EVMOS_ERC20, true)
  else if c = K.OKC then (KIP20, true)
  else if c = K.APTOS then (APTOS, true)
  else if c = K.TON then (TON, true)
  else if c = K.SUI then (SUI, true)
  else if c = K.STRIDE then (STRIDE, true)
  else if c = K.NEUTRON then (NEUTRON, true)
  else ("", false)

/-- The chain identifiers that have a `case` in the `switch` of `GetTokenType`,
in source order. -/
def switchChains (K : CoinPkg) : List Nat :=
  [ K.BITCOIN, K.TRON, K.TERRA, K.BINANCE, K.WAVES, K.THETA, K.ONTOLOGY, K.NULS,
    K.VECHAIN, K.NEO, K.EOS, K.SOLANA, K.HECO, K.HARMONY, K.OASIS, K.STELLAR,
    K.ALGORAND, K.KAVA, K.CELO, K.ELROND, K.EVMOS, K.OKC, K.APTOS, K.TON, K.SUI,
    K.STRIDE, K.NEUTRON ]

/-- The chain identifiers that have a `case` in the `switch` of
`GetEthereumTokenTypeByIndex`, in source order. -/
def evmSwitchChains (K : CoinPkg) : List Nat :=
  [ K.ETHEREUM, K.CLASSIC, K.POA, K.CALLISTO, K.WANCHAIN, K.THUNDERTOKEN, K.GOCHAIN,
    K.TOMOCHAIN, K.SMARTCHAIN, K.POLYGON, K.OPTIMISM, K.XDAI, K.AVALANCHEC, K.FANTOM,
    K.HECO, K.RONIN, K.CELO, K.CRONOS, K.KCC, K.AURORA, K.ARBITRUM, K.KAVAEVM, K.METER,
    K.EVMOS, K.OKC, K.MOONBEAM, K.KLAYTN, K.METIS, K.MOONRIVER, K.BOBA, K.TON,
    K.POLYGONZKEVM, K.ZKSYNC, K.SUI, K.STRIDE, K.NEUTRON ]

/-- A concrete instance of `CoinPkg` on which the statements below are
instantiated: pairwise different identifiers in the style of the registered
coin-type numbers, and an `IsEVM` that holds for the Ethereum-like chains of
the list. -/
def sampleCoins : CoinPkg where
  IsEVM := fun c => decide (c ∈ [60, 61, 178, 820, 5718350, 1001, 6060, 889, 20000714, 966,
    10000070, 10000100, 10009000, 10000250, 10002020, 10000025, 10000321, 1323161554,
    10042221, 10002222, 18000, 10001284, 10008217, 10001088, 10001285, 10000288,
    10001101, 10000324, 10000553, 52752, 10009001, 996])
  BITCOIN := 0
  TRON := 195
  TERRA := 330
  BINANCE := 714
  WAVES := 5741564
  THETA := 500
  ONTOLOGY := 1024
  NULS := 8964
  VECHAIN := 818
  NEO := 888
  EOS := 194
  SOLANA := 501
  HECO := 10000553
  HARMONY := 1023
  OASIS := 474
  STELLAR := 148
  ALGORAND := 283
  KAVA := 459
  CELO := 52752
  ELROND := 508
  EVMOS := 10009001
  OKC := 996
  APTOS := 637
  TON := 607
  SUI := 784
  STRIDE := 40000118
  NEUTRON := 90000118
  ETHEREUM := 60
  CLASSIC := 61
  POA := 178
  CALLISTO := 820
  WANCHAIN := 5718350
  THUNDERTOKEN := 1001
  GOCHAIN := 6060
  TOMOCHAIN := 889
  SMARTCHAIN := 20000714
  POLYGON := 966
  OPTIMISM := 10000070
  XDAI := 10000100
  AVALANCHEC := 10009000
  FANTOM := 10000250
  RONIN := 10002020
  CRONOS := 10000025
  KCC := 10000321
  AURORA := 1323161554
  ARBITRUM := 10042221
  KAVAEVM := 10002222
  METER := 18000
  MOONBEAM := 10001284
  KLAYTN := 10008217
  METIS := 10001088
  MOONRIVER := 10001285
  BOBA := 10000288
  POLYGONZKEVM := 10001101
  ZKSYNC := 10000324

/-- The case labels of the switch of `GetTokenVersion`, in source order. -/
def versionCaseLabels : List TokenType :=
  [ ERC20, BEP2, BEP20, BEP8, ETC20, POA20, CLO20, TRC10, TRC21, WAN20, GO20, TT20, WAVES,
    APTOS, TRC20, SPL, KAVA, POLYGON, AVALANCHE, ARBITRUM, FANTOM, HRC20, OPTIMISM, XDAI,
    TERRA, CELO, NRC20, CW20, ESDT, CRC20, KRC20, STELLAR, RONIN, AURORA, TON, POLYGONZKEVM,
    ZKSYNC, SUI, BRC20, ERC721, ERC1155, EOS, NEP5, VET, ONTOLOGY, THETA, TOMO, POA, OASIS,
    ALGORAND, KAVAERC20, METER, EVMOS_ERC20, KIP20, MOONBEAM, KLAYTN, METIS, MOONRIVER, BOBA,
    STRIDE, NEUTRON, FA2 ]

/-! ## The two switches as tables -/

/-- A `switch` given as a table of cases: the value of the first entry whose key
equals `c`, or `d` when no entry matches. -/
def firstCase {α : Type} (d : α) (c : Nat) : List (Nat × α) → α
  | [] => d
  | (k, v) :: rest => if c = k then v else firstCase d c rest

/-- The cases of the switch of `GetEthereumTokenTypeByIndex` as a table, in
source order. -/
def evmTable (K : CoinPkg) : List (Nat × TokenType) :=
  [
    (K.ETHEREUM, ERC20), (K.CLASSIC, ETC20), (K.POA, POA20), (K.CALLISTO, CLO20),
    (K.WANCHAIN, WAN20), (K.THUNDERTOKEN, TT20), (K.GOCHAIN, GO20), (K.TOMOCHAIN, TRC21),
    (K.SMARTCHAIN, BEP20), (K.POLYGON, POLYGON), (K.OPTIMISM, OPTIMISM), (K.XDAI, XDAI),
    (K.AVALANCHEC, AVALANCHE), (K.FANTOM, FANTOM), (K.HECO, HRC20), (K.RONIN, RONIN),
    (K.CELO, CELO), (K.CRONOS, CRC20), (K.KCC, KRC20), (K.AURORA, AURORA),
    (K.ARBITRUM, ARBITRUM), (K.KAVAEVM, KAVAERC20), (K.METER, METER), (K.EVMOS, EVMOS_ERC20),
    (K.OKC, KIP20), (K.MOONBEAM, MOONBEAM), (K.KLAYTN, KLAYTN), (K.METIS, METIS),
    (K.MOONRIVER, MOONRIVER), (K.BOBA, BOBA), (K.TON, TON), (K.POLYGONZKEVM, POLYGONZKEVM),
    (K.ZKSYNC, ZKSYNC), (K.SUI, SUI), (K.STRIDE, STRIDE), (K.NEUTRON, NEUTRON) ]

/-- The tag assigned by the case at each position of `evmTable`, in source
order. -/
def evmTags : List TokenType :=
  [
    ERC20, ETC20, POA20, CLO20, WAN20, TT20, GO20, TRC21, BEP20, POLYGON, OPTIMISM, XDAI,
    AVALANCHE, FANTOM, HRC20, RONIN, CELO, CRC20, KRC20, AURORA, ARBITRUM, KAVAERC20, METER,
    EVMOS_ERC20, KIP20, MOONBEAM, KLAYTN, METIS, MOONRIVER, BOBA, TON, POLYGONZKEVM, ZKSYNC, SUI,
    STRIDE, NEUTRON ]

/-- The cases of the switch of `GetTokenType` as a table, in source order; the
case `coin.HECO, coin.HARMONY` gives two entries. -/
def switchTable (K : CoinPkg) (tokenID : String) : List (Nat × (String × Bool)) :=
  [ (K.BITCOIN, (BRC20, true)),
    (K.TRON, match Atoi tokenID with
      | (_, some _) => (TRC20, true)
      | (_, none) => (TRC10, true)),
    (K.TERRA, if len tokenID = 44 then (CW20, true) else (TERRA, true)),
    (K.BINANCE, (BEP2, true)), (K.WAVES, (WAVES, true)), (K.THETA, (THETA, true)),
    (K.ONTOLOGY, (ONTOLOGY, true)), (K.NULS, (NRC20, true)), (K.VECHAIN, (VET, true)),
    (K.NEO, (NEP5, true)), (K.EOS, (EOS, true)), (K.SOLANA, (SPL, true)),
    (K.HECO, (HRC20, true)), (K.HARMONY, (HRC20, true)), (K.OASIS, (OASIS, true)),
    (K.STELLAR, (STELLAR, true)), (K.ALGORAND, (ALGORAND, true)), (K.KAVA, (KAVA, true)),
    (K.CELO, (CELO, true)), (K.ELROND, (ESDT, true)), (K.EVMOS, (EVMOS_ERC20, true)),
    (K.OKC, (KIP20, true)), (K.APTOS, (APTOS, true)), (K.TON, (TON, true)), (K.SUI, (SUI, true)),
    (K.STRIDE, (STRIDE, true)), (K.NEUTRON, (NEUTRON, true)) ]

/-- The tag returned by the case at each position of `switchTable`; at the
positions of Tron and Terra, whose tag depends on `tokenID`, one of their two
tags. -/
def switchTags : List TokenType :=
  [
    BRC20, TRC10, TERRA, BEP2, WAVES, THETA, ONTOLOGY, NRC20, VET, NEP5, EOS, SPL, HRC20, HRC20,
    OASIS, STELLAR, ALGORAND, KAVA, CELO, ESDT, EVMOS_ERC20, KIP20, APTOS, TON, SUI, STRIDE,
    NEUTRON ]

/-- The chain identifiers that have a case in both switches. -/
def overlapChains (K : CoinPkg) : List Nat :=
  [ K.HECO, K.CELO, K.EVMOS, K.OKC, K.TON, K.SUI, K.STRIDE, K.NEUTRON ]

/-- The instance `sampleCoins` with an `IsEVM` that answers false for every
chain, so that every chain goes through the switch of `GetTokenType`. -/
def switchOnlyCoins : CoinPkg := { sampleCoins with IsEVM := fun _ => false }

/-! ## Transaction records (`types/tx.go`)

The file `types/tx.go` is not among the sources: its functions are known
through their tests in `types/tx_test.go` and through the specification. The
definitions of this section are modelled from the specification and keep the
names that the tests use; the test tables of `tx_test.go` are transcribed below
and every model is checked against them. -/

instance allDigitsDecidable (ds : List Nat) : Decidable (allDigits ds) :=
  inferInstanceAs (Decidable (∀ b ∈ ds, 48 ≤ b ∧ b ≤ 57))

/-- Modelled from the spec: the type `Direction` of `tx.go` with its three
values (§3: `{Outgoing, Incoming, Self}`); the tests name them
`DirectionOutgoing`, `DirectionIncoming` and `DirectionSelf`. -/
inductive Direction where
  | DirectionOutgoing
  | DirectionIncoming
  | DirectionSelf
deriving DecidableEq, Repr

/-- Modelled from the spec: the type `TransactionType` of `tx.go`, the `kind` of
a record (§3), with the kinds that the specification lists under the names the
tests use; `unrecognized` stands for any other value of the underlying string,
among them the zero value of a record whose kind is not set. -/
inductive TransactionType where
  | TxTransfer
  | TxTransferNFT
  | TxContractCall
  | TxSwap
  | TxStakeDelegate
  | TxStakeUndelegate
  | TxStakeRedelegate
  | TxStakeClaimRewards
  | TxStakeCompound
  | TxUndefined
  | unrecognized (name : String)
deriving DecidableEq, Repr

open Direction TransactionType

/-- Modelled from the spec: the type `Amount` of `tx.go`, a decimal magnitude
kept as text (§3). -/
abbrev Amount := String

/-- Modelled from the spec: the type `TxOutput` of `tx.go`, an `{address, value}`
pair of `inputs` and `outputs` (§3). -/
structure TxOutput where
  Address : String
  Value : Amount
deriving DecidableEq, Repr

/-- Modelled from the spec: the type `Tx` of `tx.go`, restricted to the fields
that the derivations read (§3): `from`, `to`, `memo`, `kind` (the field `Type`
of the tests), the optional `direction`, `inputs` and `outputs`. A field that
a test leaves out has its zero value. -/
structure Tx where
  From : String
  To : String
  Memo : String
  Kind : TransactionType
  Direction : Option Direction
  Inputs : List TxOutput
  Outputs : List TxOutput
deriving DecidableEq, Repr

/-- The zero value of `Tx`: the record `Tx{}` of the tests. -/
def Tx.zero : Tx :=
  ⟨"", "", "", unrecognized "", none, [], []⟩

/-- The addresses of a sequence of inputs or outputs, in order. -/
def addressesOf (os : List TxOutput) : List String := os.map TxOutput.Address

/-! ### Memo sanitizer (§4.2) -/

/-- Modelled from the spec: the texts that parse fully as a non-negative integer
literal (§4.2), at least one decimal digit and nothing else. -/
def isNonNegativeInteger (s : String) : Bool :=
  decide (bytes s ≠ [] ∧ allDigits (bytes s))

/-- Modelled from the spec: the function `cleanMemo` of `tx.go` (§4.2
`sanitize`): the text itself when it parses fully as a non-negative integer
literal, the empty text otherwise. -/
def cleanMemo (memo : String) : String :=
  if isNonNegativeInteger memo then memo else ""

/-- Modelled from the spec: the method `Txs.CleanMemos` of `tx.go` (§4.2: the
sanitizer is applied to the memo of every record). -/
def CleanMemos (txs : List Tx) : List Tx :=
  txs.map (fun t => { t with Memo := cleanMemo t.Memo })

/-! ### Address resolver (§4.3) -/

/-- Modelled from the spec: the method `Tx.GetAddresses` of `tx.go` (§4.3
`addressesOf`). A plain transfer with inputs or outputs gives the union of the
input and output addresses; otherwise the kind decides: `{from, to}`, `{from}`
for the staking kinds, nothing for an unrecognized kind. -/
def GetAddresses (t : Tx) : List String :=
  if (t.Inputs ≠ [] ∨ t.Outputs ≠ []) ∧ t.Kind = TxTransfer then
    (addressesOf t.Inputs ++ addressesOf t.Outputs).dedup
  else
    match t.Kind with
    | TxTransfer | TxTransferNFT | TxContractCall | TxSwap | TxUndefined => [t.From, t.To]
    | TxStakeDelegate | TxStakeUndelegate | TxStakeRedelegate | TxStakeClaimRewards
    | TxStakeCompound => [t.From]
    | unrecognized _ => []

/-! ### Direction resolver (§4.4) -/

/-- Modelled from the spec: the method `Tx.GetDirection` of `tx.go` (§4.4
`directionOf`), with `none` where the specification names no result (an address
that takes no part in the record). The rule for `StakeRedelegate` and
`StakeDelegate` follows the specification for the addresses `from` and `to`, and
the test `stake_redelegate` of `TestTx_GetDirection`, which expects `Outgoing`,
for an address that is neither. -/
def GetDirection (t : Tx) (address : String) : Option Direction :=
  match t.Direction with
  | some d => some d
  | none =>
    if t.Inputs ≠ [] ∨ t.Outputs ≠ [] then
      if address ∈ addressesOf t.Inputs ∧ address ∈ addressesOf t.Outputs then
        some DirectionSelf
      else if address ∈ addressesOf t.Inputs then some DirectionOutgoing
      else if address ∈ addressesOf t.Outputs then some DirectionIncoming
      else none
    else
      match t.Kind with
      | TxStakeUndelegate | TxStakeClaimRewards =>
        if address = t.To then some DirectionIncoming else some DirectionOutgoing
      | TxStakeRedelegate | TxStakeDelegate =>
        if address = t.From then some DirectionOutgoing
        else if address = t.To then some DirectionIncoming
        else some DirectionOutgoing
      | _ =>
        if t.From = t.To ∧ t.To = address then some DirectionSelf
        else if address = t.From then some DirectionOutgoing
        else if address = t.To then some DirectionIncoming
        else none

/-- The rule of §4.4 for `StakeRedelegate` and `StakeDelegate` as the
specification words it: `Outgoing` if the address is `from`, else `Incoming`. -/
def specStakeDelegateDirection (t : Tx) (address : String) : Direction :=
  if address = t.From then DirectionOutgoing else DirectionIncoming

/-! ### UTXO value aggregator (§4.5) -/

/-- Modelled from the spec: reading a `value` text as an arbitrary-precision
decimal magnitude (§3, §4.5); `none` for malformed text. -/
def parseAmount (v : Amount) : Option Nat :=
  if bytes v ≠ [] ∧ allDigits (bytes v) then some (fromDigits 0 (bytes v)) else none

/-- The decimal digits of `n` as ASCII bytes, most significant first, put in
front of `acc`; `fuel` bounds the number of digits. -/
def decimalBytes : Nat → Nat → List Nat → List Nat
  | 0, _, acc => acc
  | fuel + 1, n, acc =>
    if n < 10 then (48 + n) :: acc
    else decimalBytes fuel (n / 10) ((48 + n % 10) :: acc)

/-- Modelled from the spec: writing an arbitrary-precision magnitude as decimal
text (§4.5), without leading zeros. -/
def formatAmount (n : Nat) : Amount :=
  String.mk ((decimalBytes (n + 1) n []).map Char.ofNat)

/-- Modelled from the spec: the magnitude that the `value` text of an output of
`tx.go` denotes (§3), 0 for malformed text. -/
def amountOf (o : TxOutput) : Nat := (parseAmount o.Value).getD 0

/-- Modelled from the spec: the exact sum of the values of the outputs that are
addressed to `a` (§4.5), the inner sum of `GetUTXOValueFor` of `tx.go`. -/
def sumTo (os : List TxOutput) (a : String) : Nat :=
  ((os.filter (fun o => o.Address = a)).map amountOf).sum

/-- Modelled from the spec: the exact sum of the values of all the outputs
(§4.5), the output total of `GetUTXOValueFor` of `tx.go`. -/
def sumAll (os : List TxOutput) : Nat := (os.map amountOf).sum

/-- Modelled from the spec: the results of `GetUTXOValueFor` of `tx.go` (§4.5):
an amount with a nil error, the parse error, or a case that the specification
does not describe. -/
inductive UTXOValue where
  | amount (a : Amount)
  | parseError
  | undocumented
deriving DecidableEq, Repr

/-- Modelled from the spec: the method `Tx.GetUTXOValueFor` of `tx.go` (§4.5
`utxoValueFor`). Malformed value text is a parse error. For a spender the
result is the total of the outputs when all of them return to it, and the sum of
the outputs of the other address when there is exactly one; for an address that
appears only in the outputs it is the sum of the outputs addressed to it. The
other cases (a record without inputs and outputs, a spender with several other
output addresses, an address that takes no part) are not described. -/
def GetUTXOValueFor (t : Tx) (address : String) : UTXOValue :=
  if t.Inputs = [] ∧ t.Outputs = [] then UTXOValue.undocumented
  else if (t.Inputs ++ t.Outputs).any (fun o => (parseAmount o.Value).isNone) then
    UTXOValue.parseError
  else if address ∈ addressesOf t.Inputs then
    match ((addressesOf t.Outputs).filter (fun a => a ≠ address)).dedup with
    | [] => UTXOValue.amount (formatAmount (sumAll t.Outputs))
    | [other] => UTXOValue.amount (formatAmount (sumTo t.Outputs other))
    | _ => UTXOValue.undocumented
  else if address ∈ addressesOf t.Outputs then
    UTXOValue.amount (formatAmount (sumTo t.Outputs address))
  else UTXOValue.undocumented

/-! ### The test tables of `types/tx_test.go` -/

/-- The table of `TestCleanMemo` (`tx_test.go:93-122`): the value and the
expected result. -/
def TestCleanMemo_cases : List (String × String) :=
  [ ("", ""), ("test", ""), ("1", "1") ]

/-- The table of `TestTxs_CleanMemos` (`tx_test.go:10-91`): the record and the
memo expected after `CleanMemos`. -/
def TestTxs_CleanMemos_cases : List (Tx × String) :=
  [ ({ Tx.zero with Memo := "1" }, "1"),
    (Tx.zero, ""),
    ({ Tx.zero with Memo := "non_number" }, ""),
    ({ Tx.zero with Memo := "1" }, "1"),
    (Tx.zero, ""),
    ({ Tx.zero with Memo := "non_number" }, ""),
    ({ Tx.zero with Memo := "1" }, "1"),
    (Tx.zero, ""),
    ({ Tx.zero with Memo := "non_number" }, ""),
    ({ Tx.zero with Memo := "1" }, "1"),
    (Tx.zero, ""),
    ({ Tx.zero with Memo := "non_number" }, ""),
    ({ Tx.zero with Memo := "1" }, "1") ]

/-- The table of `TestTx_GetAddresses` (`tx_test.go:124-250`): the record and
the expected addresses, which the test compares after sorting. -/
def TestTx_GetAddresses_cases : List (Tx × List String) :=
  [ ({ Tx.zero with Kind := TxTransfer, From := "from", To := "to" }, ["from", "to"]),
    ({ Tx.zero with Kind := TxTransferNFT, From := "from", To := "to" }, ["from", "to"]),
    ({ Tx.zero with Kind := TxStakeDelegate, From := "from", To := "to" }, ["from"]),
    ({ Tx.zero with Kind := TxStakeUndelegate, From := "from", To := "to" }, ["from"]),
    ({ Tx.zero with Kind := TxStakeClaimRewards, From := "from", To := "to" }, ["from"]),
    ({ Tx.zero with Kind := TxContractCall, From := "from", To := "to" }, ["from", "to"]),
    ({ Tx.zero with Kind := TxSwap, From := "from", To := "from" }, ["from", "from"]),
    ({ Tx.zero with Kind := TxTransfer, From := "from", To := "to" }, ["from", "to"]),
    ({ Tx.zero with Kind := TxStakeRedelegate, From := "from", To := "to_validator" },
      ["from"]),
    ({ Tx.zero with From := "from", To := "to" }, []),
    ({ Tx.zero with
        Kind := TxTransfer, From := "from_utxo", To := "from_utxo",
        Inputs := [⟨"from_utxo", ""⟩],
        Outputs := [⟨"from_utxo", ""⟩, ⟨"to_utxo", ""⟩] }, ["from_utxo", "to_utxo"]),
    ({ Tx.zero with Kind := TxStakeCompound, From := "from", To := "to" }, ["from"]) ]

/-- The record of the test `stake_redelegate` of `TestTx_GetDirection`
(`tx_test.go:403-412`), which is queried with the address `owner`. -/
def stakeRedelegateTx : Tx :=
  { Tx.zero with From := "delegator1", To := "delegator2", Kind := TxStakeRedelegate }

/-- The table of `TestTx_GetDirection` (`tx_test.go:276-433`): the record, the
queried address and the expected direction. -/
def TestTx_GetDirection_cases : List (Tx × String × Direction) :=
  [ ({ Tx.zero with Direction := some DirectionOutgoing }, "", DirectionOutgoing),
    ({ Tx.zero with Direction := some DirectionIncoming }, "", DirectionIncoming),
    ({ Tx.zero with Inputs := [⟨"sender", ""⟩], Outputs := [⟨"receiver", ""⟩] },
      "sender", DirectionOutgoing),
    ({ Tx.zero with Inputs := [⟨"sender", ""⟩], Outputs := [⟨"receiver", ""⟩] },
      "receiver", DirectionIncoming),
    ({ Tx.zero with Inputs := [⟨"sender", ""⟩], Outputs := [⟨"sender", ""⟩] },
      "sender", DirectionSelf),
    ({ Tx.zero with From := "sender", To := "receiver" }, "sender", DirectionOutgoing),
    ({ Tx.zero with From := "sender", To := "receiver" }, "receiver", DirectionIncoming),
    ({ Tx.zero with From := "sender", To := "sender" }, "sender", DirectionSelf),
    ({ Tx.zero with From := "sender", To := "sender" }, "sender", DirectionSelf),
    ({ Tx.zero with From := "sender", To := "sender" }, "sender", DirectionSelf),
    ({ Tx.zero with From := "delegator", To := "owner", Kind := TxStakeUndelegate },
      "owner", DirectionIncoming),
    (stakeRedelegateTx, "owner", DirectionOutgoing),
    ({ Tx.zero with From := "owner", To := "delegator", Kind := TxStakeDelegate },
      "owner", DirectionOutgoing),
    ({ Tx.zero with From := "delegator", To := "sender", Kind := TxStakeClaimRewards },
      "sender", DirectionIncoming) ]

/-- The table of `TestUTXOValueByAddress` (`tx_test.go:444-543`): the record,
the queried address and the expected amount; every case expects a nil error. -/
def TestUTXOValueByAddress_cases : List (Tx × String × Amount) :=
  [ ({ Tx.zero with
        Inputs := [⟨"addr", "1000"⟩],
        Outputs := [⟨"addr", "900"⟩, ⟨"addr", "100"⟩] }, "addr", "1000"),
    ({ Tx.zero with
        Inputs := [⟨"bc1qrfr44n2j4czd5c9txwlnw0yj2h82x9566fglqj", "10772"⟩,
          ⟨"bc1qf9xslrccq3hnwa8dyd9gnjcuxlyz45v5dku5t9", "12257"⟩],
        Outputs := [⟨"bc1qrfr44n2j4czd5c9txwlnw0yj2h82x9566fglqj", "14663"⟩] },
      "bc1qrfr44n2j4czd5c9txwlnw0yj2h82x9566fglqj", "14663"),
    ({ Tx.zero with Outputs := [⟨"addr", "1000"⟩] }, "addr", "1000"),
    ({ Tx.zero with
        Inputs := [⟨"addr", "1000"⟩],
        Outputs := [⟨"addr", "100"⟩, ⟨"addr1", "800"⟩] }, "addr", "800"),
    ({ Tx.zero with Outputs := [⟨"addr", "58446744073709551620"⟩] }, "addr",
      "58446744073709551620") ]

/-! ## Auxiliary lemmas -/

theorem find?_beq_of_mem (l : List String) (t : String) (h : t ∈ l) :
    l.find? (fun k => k == t) = some t := by
  induction l with
  | nil => simp at h
  | cons a l ih =>
    by_cases hat : a = t
    · subst hat; simp
    · have ht : t ∈ l := by
        rcases List.mem_cons.mp h with h1 | h1
        · exact absurd h1.symm hat
        · exact h1
      simp [List.find?_cons, hat, ih ht]

theorem find?_beq_of_not_mem (l : List String) (t : String) (h : t ∉ l) :
    l.find? (fun k => k == t) = none := by
  rw [List.find?_eq_none]
  intro x hx hxt
  have : x = t := by simpa using hxt
  exact h (this ▸ hx)

theorem parse_of_mem (t : String) (h : t ∈ GetTokenTypes) :
    ParseTokenTypeFromString t = (t, none) := by
  unfold ParseTokenTypeFromString
  rw [find?_beq_of_mem _ _ h]

theorem parse_of_not_mem (t : String) (h : t ∉ GetTokenTypes) :
    ParseTokenTypeFromString t = ("", some (wrapf t .ErrUnknownTokenType)) := by
  unfold ParseTokenTypeFromString
  rw [find?_beq_of_not_mem _ _ h]

theorem switch_of_mem : ∀ k ∈ GetTokenTypes, (tokenVersionSwitch k).2 = none := by
  decide!

theorem version_of_mem (t : String) (h : t ∈ GetTokenTypes) :
    GetTokenVersion t = tokenVersionSwitch t := by
  unfold GetTokenVersion
  rw [parse_of_mem t h]

theorem version_of_not_mem (t : String) (h : t ∉ GetTokenTypes) :
    GetTokenVersion t = (TokenVersionUndefined, some (wrapf t .ErrUnknownTokenType)) := by
  unfold GetTokenVersion
  rw [parse_of_not_mem t h]

theorem ite_mem {α : Type} {p : Prop} [Decidable p] {a b : α} {l : List α}
    (ha : a ∈ l) (hb : b ∈ l) : (if p then a else b) ∈ l := by
  split <;> assumption

theorem evmSwitch_mem (K : CoinPkg) (c : Nat) :
    ethereumTokenTypeSwitch K c ∈ "" :: GetTokenTypes := by
  unfold ethereumTokenTypeSwitch
  repeat (apply ite_mem (by decide))
  decide

theorem evm_tag_mem (K : CoinPkg) (c : Nat)
    (h : (GetEthereumTokenTypeByIndex K c).2 = none) :
    (GetEthereumTokenTypeByIndex K c).1 ∈ GetTokenTypes := by
  have hm := evmSwitch_mem K c
  unfold GetEthereumTokenTypeByIndex at h ⊢
  by_cases he : ethereumTokenTypeSwitch K c = ""
  · simp [he] at h
  · simp only [he, if_false]
    rcases List.mem_cons.mp hm with h1 | h1
    · exact absurd h1 he
    · exact h1

/-- The possible results of `GetTokenType`. -/
theorem tokenType_range (K : CoinPkg) (c : Nat) (tokenID : String) :
    GetTokenType K c tokenID ∈ ("", false) :: GetTokenTypes.map (fun t => (t, true)) := by
  unfold GetTokenType
  by_cases hevm : K.IsEVM c = true
  · rw [if_pos hevm]
    have := evm_tag_mem K c
    rcases hg : GetEthereumTokenTypeByIndex K c with ⟨tag, _ | e⟩
    · rw [hg] at this
      simp only [List.mem_cons, List.mem_map]
      exact Or.inr ⟨tag, this rfl, rfl⟩
    · simp
  · rw [if_neg hevm]
    apply ite_mem (by decide)
    apply ite_mem (by split <;> decide)
    apply ite_mem (ite_mem (by decide) (by decide))
    repeat (apply ite_mem (by decide))
    decide

theorem utf8EncodeChar_ascii (ch : Char) (h : ch.val < 128) :
    (String.utf8EncodeChar ch).length = 1 := by
  have h1 : ch.val ≤ 0x7f := by
    have : ch.val.toNat < 128 := h
    show ch.val.toNat ≤ 127
    omega
  simp [String.utf8EncodeChar, h1]

theorem len_ascii_aux (cs : List Char) (h : ∀ ch ∈ cs, ch.val < 128) :
    (cs.flatMap (fun c => (String.utf8EncodeChar c).map UInt8.toNat)).length = cs.length := by
  induction cs with
  | nil => rfl
  | cons a cs ih =>
    have ha := utf8EncodeChar_ascii a (h a (List.mem_cons_self a cs))
    have ht := ih (fun ch hch => h ch (List.mem_cons_of_mem a hch))
    simp only [List.flatMap_cons, List.length_append, List.length_map, List.length_cons, ha, ht]
    omega

/-- On a text of ASCII characters only, Go's `len` is the number of characters. -/
theorem len_ascii (s : String) (h : ∀ ch ∈ s.data, ch.val < 128) : len s = s.length :=
  len_ascii_aux s.data h

theorem tokenVersionSwitch_of_label :
    ∀ p ∈ versionCaseLabels, (tokenVersionSwitch p).2 = none := by
  decide!

theorem tokenVersionSwitch_labels (p : TokenType) :
    (tokenVersionSwitch p).2 = none ↔ p ∈ versionCaseLabels := by
  by_cases hp : p ∈ versionCaseLabels
  · exact iff_of_true (tokenVersionSwitch_of_label p hp) hp
  · refine iff_of_false ?_ hp
    have hq := hp
    simp only [versionCaseLabels, List.mem_cons, List.mem_singleton, List.not_mem_nil,
      or_false, not_or] at hq
    unfold tokenVersionSwitch
    simp only [List.mem_cons, List.mem_singleton, List.not_mem_nil, or_false, hq, if_false]
    simp

/-! ### `strconv.Atoi` accepts exactly the integer literals in range -/

theorem bytes_lt (s : String) : ∀ b ∈ bytes s, b < 256 := by
  intro b hb
  unfold bytes at hb
  rw [List.mem_flatMap] at hb
  obtain ⟨c, _, hc⟩ := hb
  rw [List.mem_map] at hc
  obtain ⟨u, _, hu⟩ := hc
  rw [← hu]
  exact u.val.isLt

theorem allDigits_cons (c : Nat) (ds : List Nat) :
    allDigits (c :: ds) ↔ (48 ≤ c ∧ c ≤ 57) ∧ allDigits ds := by
  unfold allDigits
  simp only [List.mem_cons, forall_eq_or_imp]

theorem fromDigits_cons (n c : Nat) (ds : List Nat) :
    fromDigits n (c :: ds) = fromDigits (n * 10 + (c - 48)) ds := rfl

theorem fromDigits_ge (ds : List Nat) : ∀ n : Nat, n ≤ fromDigits n ds := by
  induction ds with
  | nil => intro n; exact Nat.le_refl n
  | cons c ds ih =>
    intro n
    rw [fromDigits_cons]
    have := ih (n * 10 + (c - 48))
    omega

theorem fromDigits_lt (ds : List Nat) (h : allDigits ds) :
    ∀ n : Nat, fromDigits n ds < (n + 1) * 10 ^ ds.length := by
  induction ds with
  | nil => intro n; simp [fromDigits]
  | cons c ds ih =>
    intro n
    rw [allDigits_cons] at h
    rw [fromDigits_cons]
    have h1 := ih h.2 (n * 10 + (c - 48))
    have h2 : n * 10 + (c - 48) + 1 ≤ (n + 1) * 10 := by omega
    calc fromDigits (n * 10 + (c - 48)) ds
        < (n * 10 + (c - 48) + 1) * 10 ^ ds.length := h1
      _ ≤ ((n + 1) * 10) * 10 ^ ds.length := Nat.mul_le_mul_right _ h2
      _ = (n + 1) * 10 ^ (c :: ds).length := by
          rw [List.length_cons, Nat.pow_succ]; ring

theorem atoiFastLoop_isSome (ds : List Nat) (hb : ∀ b ∈ ds, b < 256) :
    ∀ n : Int, (atoiFastLoop ds n).isSome = true ↔ allDigits ds := by
  induction ds with
  | nil => intro n; simp [atoiFastLoop, allDigits]
  | cons c ds ih =>
    intro n
    have hc : c < 256 := hb c (List.mem_cons_self c ds)
    have hds : ∀ b ∈ ds, b < 256 := fun b h => hb b (List.mem_cons_of_mem c h)
    rw [allDigits_cons]
    unfold atoiFastLoop
    by_cases hd : (c + 256 - 48) % 256 > 9
    · simp only [hd, if_true]
      constructor
      · intro h; exact absurd h (by simp)
      · intro h; omega
    · simp only [hd, if_false]
      rw [ih hds]
      constructor
      · intro h; exact ⟨by omega, h⟩
      · intro h; exact h.2

theorem parseUintLoop_spec (M C : Nat) (hM : M = 18446744073709551615)
    (hC : C = 1844674407370955162) (ds : List Nat) :
    ∀ n : Nat, n ≤ M →
      ((parseUintLoop M C ds n).2 = none ↔ allDigits ds ∧ fromDigits n ds ≤ M) ∧
      ((parseUintLoop M C ds n).2 = none → (parseUintLoop M C ds n).1 = fromDigits n ds) ∧
      ((parseUintLoop M C ds n).2 = some .ErrRange → (parseUintLoop M C ds n).1 = M) := by
  induction ds with
  | nil =>
    intro n hn
    simp [parseUintLoop, allDigits, fromDigits, hn]
  | cons c ds ih =>
    intro n hn
    rw [allDigits_cons, fromDigits_cons]
    have hge := fromDigits_ge ds (n * 10 + (c - 48))
    unfold parseUintLoop
    by_cases hd : 48 ≤ c ∧ c ≤ 57
    · rw [if_pos hd]
      by_cases hc : n ≥ C
      · rw [if_pos hc]
        refine ⟨⟨fun h => absurd h (by simp), fun h => ?_⟩, fun h => absurd h (by simp),
          fun _ => rfl⟩
        omega
      · rw [if_neg hc]
        have h10 : n * 10 % 2 ^ 64 = n * 10 := by
          apply Nat.mod_eq_of_lt
          norm_num
          omega
        simp only [h10]
        by_cases hov : (n * 10 + (c - 48)) % 2 ^ 64 < n * 10 ∨ (n * 10 + (c - 48)) % 2 ^ 64 > M
        · rw [if_pos hov]
          refine ⟨⟨fun h => absurd h (by simp), fun h => ?_⟩, fun h => absurd h (by simp),
            fun _ => rfl⟩
          have hlt : n * 10 + (c - 48) < 2 ^ 64 := by norm_num; omega
          rw [Nat.mod_eq_of_lt hlt] at hov
          omega
        · rw [if_neg hov]
          have hlt : n * 10 + (c - 48) < 2 ^ 64 := by
            by_contra hcon
            apply hov
            left
            norm_num at hcon ⊢
            omega
          rw [Nat.mod_eq_of_lt hlt]
          have hn1 : n * 10 + (c - 48) ≤ M := by norm_num at hlt; omega
          obtain ⟨i1, i2, i3⟩ := ih (n * 10 + (c - 48)) hn1
          exact ⟨⟨fun h => ⟨⟨hd, (i1.mp h).1⟩, (i1.mp h).2⟩, fun h => i1.mpr ⟨h.1.2, h.2⟩⟩, i2, i3⟩
    · rw [if_neg hd]
      exact ⟨⟨fun h => absurd h (by simp), fun h => absurd h.1.1 hd⟩,
        fun h => absurd h (by simp), fun h => absurd h (by simp)⟩

theorem ParseUint_spec (s : List Nat) :
    ((ParseUint s).2 = none ↔ s ≠ [] ∧ allDigits s ∧ fromDigits 0 s < 2 ^ 64) ∧
    ((ParseUint s).2 = none → (ParseUint s).1 = fromDigits 0 s) ∧
    ((ParseUint s).2 = some .ErrRange → (ParseUint s).1 = 2 ^ 64 - 1) := by
  unfold ParseUint
  by_cases hs : s = []
  · rw [if_pos hs]
    exact ⟨⟨fun h => absurd h (by simp), fun h => absurd hs h.1⟩, fun h => absurd h (by simp),
      fun h => absurd h (by simp)⟩
  · rw [if_neg hs]
    have hM : 2 ^ intSize - 1 = 18446744073709551615 := by norm_num [intSize]
    have hC : (2 ^ 64 - 1) / 10 + 1 = 1844674407370955162 := by norm_num
    obtain ⟨i1, i2, i3⟩ := parseUintLoop_spec _ _ hM hC s 0 (Nat.zero_le _)
    refine ⟨⟨fun h => ⟨hs, (i1.mp h).1, ?_⟩, fun h => i1.mpr ⟨h.2.1, ?_⟩⟩, i2, ?_⟩
    · have := (i1.mp h).2
      rw [hM] at this
      norm_num
      omega
    · have := h.2.2
      rw [hM]
      norm_num at this
      omega
    · intro h
      rw [i3 h, hM]
      norm_num

theorem parseInt_tail (neg : Bool) (s : List Nat) :
    (match ParseUint s with
      | (_, some .ErrSyntax) => ((0 : Int), some NumErr.ErrSyntax)
      | (un, _) =>
        let cutoff := 2 ^ (intSize - 1)
        if !neg ∧ un ≥ cutoff then ((cutoff : Int) - 1, some .ErrRange)
        else if neg ∧ un > cutoff then (-(cutoff : Int), some .ErrRange)
        else if neg then (-(un : Int), none) else ((un : Int), none)).2 = none ↔
    s ≠ [] ∧ allDigits s ∧
      (if neg then fromDigits 0 s ≤ 2 ^ 63 else fromDigits 0 s < 2 ^ 63) := by
  obtain ⟨i1, i2, i3⟩ := ParseUint_spec s
  have hsub : (s ≠ [] ∧ allDigits s ∧
      (if neg then fromDigits 0 s ≤ 2 ^ 63 else fromDigits 0 s < 2 ^ 63)) →
      (ParseUint s).2 = none := by
    intro h
    refine i1.mpr ⟨h.1, h.2.1, ?_⟩
    have h3 := h.2.2
    cases neg
    · simp only [Bool.false_eq_true, if_false] at h3
      norm_num at h3 ⊢
      omega
    · simp only [if_true] at h3
      norm_num at h3 ⊢
      omega
  rcases hr : ParseUint s with ⟨un, _ | _ | _⟩
  · rw [hr] at i1 i2
    have hun : un = fromDigits 0 s := i2 rfl
    have hi := i1.mp rfl
    subst hun
    cases neg
    · by_cases hlt : fromDigits 0 s < 9223372036854775808
      · have hge : ¬ fromDigits 0 s ≥ 9223372036854775808 := by omega
        simp [intSize, hlt, hge, hi.1, hi.2.1]
      · have hge : fromDigits 0 s ≥ 9223372036854775808 := by omega
        simp [intSize, hlt, hge]
    · by_cases hle : fromDigits 0 s ≤ 9223372036854775808
      · have hgt : ¬ fromDigits 0 s > 9223372036854775808 := by omega
        simp [intSize, hle, hgt, hi.1, hi.2.1]
      · have hgt : fromDigits 0 s > 9223372036854775808 := by omega
        simp [intSize, hle, hgt]
  · constructor
    · intro h; exact absurd h (by simp)
    · intro h
      have hh := hsub h
      rw [hr] at hh
      exact absurd hh (by simp)
  · rw [hr] at i3
    have hun : un = 2 ^ 64 - 1 := i3 rfl
    subst hun
    constructor
    · intro h
      cases neg <;> simp [intSize] at h
    · intro h
      have hh := hsub h
      rw [hr] at hh
      exact absurd hh (by simp)

theorem ParseInt_ok_iff (bs : List Nat) : (ParseInt bs).2 = none ↔ IntLiteral bs := by
  cases bs with
  | nil => simp [ParseInt, IntLiteral]
  | cons c rest =>
    unfold ParseInt IntLiteral
    by_cases h45 : c = 45
    · subst h45
      exact (parseInt_tail true rest).trans (by simp)
    · by_cases h43 : c = 43
      · subst h43
        exact (parseInt_tail false rest).trans (by simp)
      · have hneg : decide (c = 45) = false := by simp [h45]
        have hs : (if c = 43 ∨ c = 45 then rest else c :: rest) = c :: rest :=
          if_neg (by simp [h43, h45])
        simp only []
        rw [hs, hneg]
        exact (parseInt_tail false (c :: rest)).trans (by simp [h43, h45])

theorem fromDigits_small (ds : List Nat) (hd : allDigits ds) (hl : ds.length ≤ 18) :
    fromDigits 0 ds < 2 ^ 63 := by
  have hv := fromDigits_lt ds hd 0
  have hp : (10 : Nat) ^ ds.length ≤ 10 ^ 18 := Nat.pow_le_pow_right (by norm_num) hl
  norm_num at hv hp ⊢
  omega

theorem atoiFast_ok_iff (ds : List Nat) (hb : ∀ b ∈ ds, b < 256) (neg : Prop)
    [Decidable neg] :
    (match atoiFastLoop ds 0 with
      | none => ((0 : Int), some NumErr.ErrSyntax)
      | some n => if neg then (-n, none) else (n, none)).2 = none ↔ allDigits ds := by
  have hs := atoiFastLoop_isSome ds hb 0
  rcases hf : atoiFastLoop ds 0 with _ | v
  · rw [hf] at hs
    simp only [Option.isSome_none, Bool.false_eq_true, false_iff] at hs
    simp [hs]
  · rw [hf] at hs
    have hd : allDigits ds := hs.mp rfl
    by_cases hn : neg <;> simp [hn, hd]

theorem Atoi_ok_iff (str : String) : (Atoi str).2 = none ↔ IntLiteral (bytes str) := by
  have hb := bytes_lt str
  unfold Atoi
  generalize bytes str = bs at hb
  simp only []
  by_cases hlen : 0 < bs.length ∧ bs.length < 19
  · rw [if_pos hlen]
    cases bs with
    | nil => simp at hlen
    | cons c rest =>
      have hrest : ∀ b ∈ rest, b < 256 := fun b h => hb b (List.mem_cons_of_mem c h)
      have hl : rest.length ≤ 17 := by
        have := hlen.2
        simp only [List.length_cons] at this
        omega
      have hsigned : ∀ h : c = 45 ∨ c = 43,
          ((if (decide (some c = some 45 ∨ some c = some 43) = true ∧ rest.length < 1)
            then ((0 : Int), some NumErr.ErrSyntax)
            else
              match atoiFastLoop rest 0 with
              | none => ((0 : Int), some NumErr.ErrSyntax)
              | some n => if some c = some 45 then (-n, none) else (n, none)).2 = none ↔
            rest ≠ [] ∧ allDigits rest) := by
        intro h
        by_cases hr : rest = []
        · subst hr
          simp [h]
        · have hlr : ¬ rest.length < 1 := by
            have := List.length_pos.mpr hr
            omega
          rw [if_neg (fun hh => hlr hh.2)]
          rw [atoiFast_ok_iff rest hrest]
          simp [hr]
      unfold IntLiteral
      by_cases h45 : c = 45
      · have key := hsigned (Or.inl h45)
        subst h45
        simp only [List.head?_cons, List.tail_cons] at key ⊢
        simp only [if_true, true_or, decide_True] at key ⊢
        rw [key]
        constructor
        · intro h; exact ⟨h.1, h.2, Nat.le_of_lt (fromDigits_small rest h.2 (by omega))⟩
        · intro h; exact ⟨h.1, h.2.1⟩
      · by_cases h43 : c = 43
        · have key := hsigned (Or.inr h43)
          subst h43
          simp only [List.head?_cons, List.tail_cons] at key ⊢
          simp only [if_true, or_true, decide_True] at key ⊢
          rw [key]
          simp only [show ¬ ((43 : Nat) = 45) by decide, if_false]
          constructor
          · intro h; exact ⟨h.1, h.2, fromDigits_small rest h.2 (by omega)⟩
          · intro h; exact ⟨h.1, h.2.1⟩
        · have hns : ¬ (some c = some 45 ∨ some c = some 43) := by simp [h45, h43]
          have hn45 : ¬ (some c = some 45) := by simp [h45]
          simp only [List.head?_cons, hns, decide_False, Bool.false_eq_true, false_and,
            if_false, h45, h43]
          rw [atoiFast_ok_iff (c :: rest) hb]
          constructor
          · intro h
            exact ⟨h, fromDigits_small (c :: rest) h (by simp only [List.length_cons]; omega)⟩
          · intro h; exact h.1
  · rw [if_neg hlen]
    exact ParseInt_ok_iff bs
/-! ## The claims -/

/-- Claim C1. Exhaustiveness of the version table: for every tag of
`GetTokenTypes`, `GetTokenVersion` on its text returns a nil error; and the
`default` branch of the switch is unreachable: whenever the parse succeeds the
switch returns a nil error, so for every input text the only error that
`GetTokenVersion` can return is the parse error wrapping `ErrUnknownTokenType`,
never one wrapping `errTokenVersionNotImplemented`. -/
theorem GetTokenVersion_exhaustive (tag : TokenType) (h : tag ∈ GetTokenTypes) :
    (GetTokenVersion tag).2 = none ∧
    (∀ (t : String) (p : TokenType), ParseTokenTypeFromString t = (p, none) →
      (tokenVersionSwitch p).2 = none) ∧
    (∀ (t : String) (e : GoError), (GetTokenVersion t).2 = some e →
      e.wraps = some .ErrUnknownTokenType ∧ e.wraps ≠ some .errTokenVersionNotImplemented) := by
  refine ⟨?_, ?_, ?_⟩
  · rw [version_of_mem tag h]; exact switch_of_mem tag h
  · intro t p hp
    by_cases ht : t ∈ GetTokenTypes
    · rw [parse_of_mem t ht] at hp
      have hpt : t = p := congrArg Prod.fst hp
      exact switch_of_mem p (hpt ▸ ht)
    · rw [parse_of_not_mem t ht] at hp
      exact absurd (congrArg Prod.snd hp) (by simp)
  · intro t e he
    by_cases ht : t ∈ GetTokenTypes
    · rw [version_of_mem t ht, switch_of_mem t ht] at he
      exact absurd he (by simp)
    · rw [version_of_not_mem t ht] at he
      have hee : wrapf t .ErrUnknownTokenType = e := Option.some.inj he
      subst hee
      simp [wrapf]

/-- Instance of C1 at the tag `ERC20`. -/
theorem GetTokenVersion_exhaustive_witness :
    ERC20 ∈ GetTokenTypes ∧ (GetTokenVersion ERC20).2 = none :=
  ⟨by decide, (GetTokenVersion_exhaustive ERC20 (by decide)).1⟩

/-- Claim C2. Round trip: for every tag of `GetTokenTypes`,
`ParseTokenTypeFromString` on its text returns exactly that tag and a nil
error. -/
theorem ParseTokenTypeFromString_roundtrip (tag : TokenType) (h : tag ∈ GetTokenTypes) :
    ParseTokenTypeFromString tag = (tag, none) :=
  parse_of_mem tag h

/-- Instance of C2 at the tag `POLYGONZKEVM`, whose text is `ZKEVM`. -/
theorem ParseTokenTypeFromString_roundtrip_witness :
    POLYGONZKEVM ∈ GetTokenTypes ∧ ParseTokenTypeFromString "ZKEVM" = ("ZKEVM", none) :=
  ⟨by decide, ParseTokenTypeFromString_roundtrip POLYGONZKEVM (by decide)⟩

/-- Claim C3. For every text `t` that is not (exactly, case-sensitively) the
text of a tag of `GetTokenTypes`, `ParseTokenTypeFromString t` returns the empty
tag together with the error `t: unknown token type`, which wraps
`ErrUnknownTokenType`; no tag is guessed. -/
theorem ParseTokenTypeFromString_unknown (t : String) (h : t ∉ GetTokenTypes) :
    (ParseTokenTypeFromString t).1 = "" ∧
    ∃ e : GoError, (ParseTokenTypeFromString t).2 = some e ∧
      e.wraps = some .ErrUnknownTokenType ∧ e.msg = t ++ ": " ++ "unknown token type" := by
  rw [parse_of_not_mem t h]
  exact ⟨rfl, _, rfl, rfl, rfl⟩

/-- Instance of C3 at the lower-case text `erc20`, which differs from the tag
`ERC20` only by case. -/
theorem ParseTokenTypeFromString_unknown_witness :
    "erc20" ∉ GetTokenTypes ∧ (ParseTokenTypeFromString "erc20").1 = "" ∧
    ∃ e : GoError, (ParseTokenTypeFromString "erc20").2 = some e ∧
      e.wraps = some .ErrUnknownTokenType ∧ e.msg = "erc20" ++ ": " ++ "unknown token type" :=
  ⟨by decide, ParseTokenTypeFromString_unknown "erc20" (by decide)⟩

/-- Claim C4. The chain→tag and tag→version tables are complete together: for
every chain identifier `c` and every `tokenID`, whatever `coin.IsEVM` and the
chain constants are, if `GetTokenType c tokenID` returns `(s, true)` then `s`
is the text of a tag of `GetTokenTypes` and `GetTokenVersion s` returns a nil
error. -/
theorem GetTokenType_version_complete (K : CoinPkg) (c : Nat) (tokenID s : String)
    (h : GetTokenType K c tokenID = (s, true)) :
    s ∈ GetTokenTypes ∧ (GetTokenVersion s).2 = none := by
  have hr := tokenType_range K c tokenID
  rw [h] at hr
  have hs : s ∈ GetTokenTypes := by
    rcases List.mem_cons.mp hr with h1 | h1
    · exact absurd (congrArg Prod.snd h1) (by simp)
    · obtain ⟨t, ht, hts⟩ := List.mem_map.mp h1
      have : t = s := congrArg Prod.fst hts
      exact this ▸ ht
  exact ⟨hs, by rw [version_of_mem s hs]; exact switch_of_mem s hs⟩

/-- Instance of C4 at the Tron chain of `sampleCoins` with a non-numeric
`tokenID`. -/
theorem GetTokenType_version_complete_witness :
    GetTokenType sampleCoins 195 "TR7NHqjeKQxGTCi8q8ZY4pL8otSzgjLj6t" = ("TRC20", true) ∧
    "TRC20" ∈ GetTokenTypes ∧ (GetTokenVersion "TRC20").2 = none :=
  ⟨by decide, GetTokenType_version_complete sampleCoins 195
    "TR7NHqjeKQxGTCi8q8ZY4pL8otSzgjLj6t" "TRC20" (by decide)⟩

/-- Claim C5. On a chain with `coin.IsEVM c` true the result of `GetTokenType`
does not depend on `tokenID`: it is `(tag, true)` when
`GetEthereumTokenTypeByIndex c` returns `tag` with a nil error, and
`("", false)` when `GetEthereumTokenTypeByIndex c` returns an error. -/
theorem GetTokenType_evm (K : CoinPkg) (c : Nat) (a b : String) (h : K.IsEVM c = true) :
    GetTokenType K c a = GetTokenType K c b ∧
    (∀ tag : TokenType, GetEthereumTokenTypeByIndex K c = (tag, none) →
      GetTokenType K c a = (tag, true)) ∧
    (∀ (tag : TokenType) (e : GoError), GetEthereumTokenTypeByIndex K c = (tag, some e) →
      GetTokenType K c a = ("", false)) := by
  unfold GetTokenType
  simp only [h, if_true]
  refine ⟨trivial, ?_, ?_⟩
  · intro tag hg; rw [hg]
  · intro tag e hg; rw [hg]

/-- Instance of C5 at the Ethereum chain of `sampleCoins`. -/
theorem GetTokenType_evm_witness :
    sampleCoins.IsEVM 60 = true ∧
    GetTokenType sampleCoins 60 "0xdac17f958d2ee523a2206206994597c13d831ec7" =
      GetTokenType sampleCoins 60 "" ∧
    GetTokenType sampleCoins 60 "0xdac17f958d2ee523a2206206994597c13d831ec7" =
      ("ERC20", true) :=
  ⟨by decide,
    (GetTokenType_evm sampleCoins 60 "0xdac17f958d2ee523a2206206994597c13d831ec7" ""
      (by decide)).1,
    (GetTokenType_evm sampleCoins 60 "0xdac17f958d2ee523a2206206994597c13d831ec7" ""
      (by decide)).2.1 "ERC20" (by decide)⟩

/-- Claim C6. On the Tron chain (not an EVM chain; its `case` follows the one of
Bitcoin, a different constant) and for every `tokenID`: `GetTokenType` returns
`("TRC10", true)` when `tokenID` parses as an integer (`strconv.Atoi` returns a
nil error) and `("TRC20", true)` when it does not; the result is never
not-found. The texts that parse are the decimal literals of a 64-bit `int`
(`IntLiteral`). -/
theorem GetTokenType_tron (K : CoinPkg) (tokenID : String)
    (hevm : K.IsEVM K.TRON = false) (hbtc : K.TRON ≠ K.BITCOIN) :
    ((Atoi tokenID).2 = none → GetTokenType K K.TRON tokenID = ("TRC10", true)) ∧
    ((Atoi tokenID).2 ≠ none → GetTokenType K K.TRON tokenID = ("TRC20", true)) ∧
    (GetTokenType K K.TRON tokenID).2 = true ∧
    ((Atoi tokenID).2 = none ↔ IntLiteral (bytes tokenID)) := by
  have hE : ¬ K.IsEVM K.TRON = true := by simp [hevm]
  refine ⟨?_, ?_, ?_, Atoi_ok_iff tokenID⟩
  all_goals
    unfold GetTokenType
    rw [if_neg hE, if_neg hbtc, if_pos rfl]
    rcases Atoi tokenID with ⟨n, _ | e⟩
  · exact fun _ => rfl
  · exact fun h => absurd h (by simp)
  · exact fun h => absurd rfl h
  · exact fun _ => rfl
  · rfl
  · rfl

/-- Instance of C6 at the Tron chain of `sampleCoins` and the numeric
`tokenID` 1002000. -/
theorem GetTokenType_tron_witness :
    sampleCoins.IsEVM sampleCoins.TRON = false ∧ sampleCoins.TRON ≠ sampleCoins.BITCOIN ∧
    (Atoi "1002000").2 = none ∧
    GetTokenType sampleCoins sampleCoins.TRON "1002000" = ("TRC10", true) :=
  ⟨by decide, by decide, by decide,
    (GetTokenType_tron sampleCoins "1002000" (by decide) (by decide)).1 (by decide)⟩

/-- Claim C7. On the Terra chain (not an EVM chain; its `case` follows the ones
of Bitcoin and Tron, different constants) and for every `tokenID`:
`GetTokenType` returns `("CW20", true)` when `tokenID` has length 44 and
`("TERRA", true)` for every other length, the empty `tokenID` included. The
length is Go's `len`, which counts the bytes of the text; on a text of ASCII
characters it is the number of characters. -/
theorem GetTokenType_terra (K : CoinPkg) (tokenID : String)
    (hevm : K.IsEVM K.TERRA = false) (hbtc : K.TERRA ≠ K.BITCOIN) (htron : K.TERRA ≠ K.TRON) :
    (len tokenID = 44 → GetTokenType K K.TERRA tokenID = ("CW20", true)) ∧
    (len tokenID ≠ 44 → GetTokenType K K.TERRA tokenID = ("TERRA", true)) ∧
    GetTokenType K K.TERRA "" = ("TERRA", true) ∧
    ((∀ ch ∈ tokenID.data, ch.val < 128) → len tokenID = tokenID.length) := by
  have hE : ¬ K.IsEVM K.TERRA = true := by simp [hevm]
  have hT : ∀ id : String, GetTokenType K K.TERRA id =
      if len id = 44 then (CW20, true) else (TERRA, true) := by
    intro id
    unfold GetTokenType
    rw [if_neg hE, if_neg hbtc, if_neg htron, if_pos rfl]
  refine ⟨fun h => ?_, fun h => ?_, ?_, len_ascii tokenID⟩
  · rw [hT, if_pos h]; rfl
  · rw [hT, if_neg h]; rfl
  · rw [hT]; decide

/-- Instance of C7 at the Terra chain of `sampleCoins` and a contract address of
44 characters. -/
theorem GetTokenType_terra_witness :
    sampleCoins.IsEVM sampleCoins.TERRA = false ∧ sampleCoins.TERRA ≠ sampleCoins.BITCOIN ∧
    sampleCoins.TERRA ≠ sampleCoins.TRON ∧
    len "terra14z56l0fp2lsf86zy3hty2z47ezkhnthtr9yq76" = 44 ∧
    GetTokenType sampleCoins sampleCoins.TERRA "terra14z56l0fp2lsf86zy3hty2z47ezkhnthtr9yq76" =
      ("CW20", true) :=
  ⟨by decide, by decide, by decide, by decide,
    (GetTokenType_terra sampleCoins "terra14z56l0fp2lsf86zy3hty2z47ezkhnthtr9yq76"
      (by decide) (by decide) (by decide)).1 (by decide)⟩

/-- Claim C8. For every chain identifier `c` that is not an EVM chain and has no
`case` in the switch of `GetTokenType`, and every `tokenID`, `GetTokenType`
returns `("", false)`: an empty tag and not-found (the function has no error
result and no failing operation). -/
theorem GetTokenType_unlisted (K : CoinPkg) (c : Nat) (tokenID : String)
    (hevm : K.IsEVM c = false) (h : c ∉ switchChains K) :
    GetTokenType K c tokenID = ("", false) := by
  simp only [switchChains, List.mem_cons, List.mem_singleton, List.not_mem_nil, or_false,
    not_or] at h
  obtain ⟨h1, h2, h3, h4, h5, h6, h7, h8, h9, h10, h11, h12, h13, h14, h15, h16, h17, h18,
    h19, h20, h21, h22, h23, h24, h25, h26, h27⟩ := h
  have hE : ¬ K.IsEVM c = true := by simp [hevm]
  unfold GetTokenType
  rw [if_neg hE, if_neg h1, if_neg h2, if_neg h3, if_neg h4, if_neg h5,
    if_neg h6, if_neg h7, if_neg h8, if_neg h9, if_neg h10, if_neg h11, if_neg h12,
    if_neg (not_or.mpr ⟨h13, h14⟩), if_neg h15, if_neg h16, if_neg h17, if_neg h18,
    if_neg h19, if_neg h20, if_neg h21, if_neg h22, if_neg h23, if_neg h24, if_neg h25,
    if_neg h26, if_neg h27]

/-- Instance of C8 at the chain identifier 2, which `sampleCoins` neither lists
nor counts as EVM. -/
theorem GetTokenType_unlisted_witness :
    sampleCoins.IsEVM 2 = false ∧ 2 ∉ switchChains sampleCoins ∧
    GetTokenType sampleCoins 2 "any" = ("", false) :=
  ⟨by decide, by decide, GetTokenType_unlisted sampleCoins 2 "any" (by decide) (by decide)⟩

/-- Claim C9. For every text `t` that is not the text of a tag of
`GetTokenTypes`, `GetTokenVersion t` returns `TokenVersionUndefined`, which is
-1, together with the parse error, which wraps `ErrUnknownTokenType` and not
`errTokenVersionNotImplemented`; no version of the table is returned. -/
theorem GetTokenVersion_unknown (t : String) (h : t ∉ GetTokenTypes) :
    (GetTokenVersion t).1 = -1 ∧
    ∃ e : GoError, (GetTokenVersion t).2 = some e ∧ (ParseTokenTypeFromString t).2 = some e ∧
      e.wraps = some .ErrUnknownTokenType ∧ e.wraps ≠ some .errTokenVersionNotImplemented := by
  rw [version_of_not_mem t h, parse_of_not_mem t h]
  exact ⟨rfl, _, rfl, rfl, rfl, by simp [wrapf]⟩

/-- Instance of C9 at the text `coin`, the value of the constant `Coin`, which
is not enumerated. -/
theorem GetTokenVersion_unknown_witness :
    Coin ∉ GetTokenTypes ∧ (GetTokenVersion "coin").1 = -1 ∧
    ∃ e : GoError, (GetTokenVersion "coin").2 = some e ∧
      (ParseTokenTypeFromString "coin").2 = some e ∧
      e.wraps = some .ErrUnknownTokenType ∧ e.wraps ≠ some .errTokenVersionNotImplemented :=
  ⟨by decide, GetTokenVersion_unknown "coin" (by decide)⟩

/-- Claim C10, evaluated on the code. The switch of `GetTokenVersion` maps `FA2`
to `(TokenVersionUndefined, nil)`, yet `FA2` is not a member of `GetTokenTypes`
(it is the only case label that is not), so `GetTokenVersion "FA2"` never
reaches its `case` and returns -1 with the error `FA2: unknown token type`. -/
theorem GetTokenVersion_FA2 :
    FA2 ∈ versionCaseLabels ∧
    tokenVersionSwitch FA2 = (TokenVersionUndefined, none) ∧
    versionCaseLabels.filter (fun p => decide (p ∉ GetTokenTypes)) = [FA2] ∧
    ParseTokenTypeFromString "FA2" = ("", some (wrapf "FA2" .ErrUnknownTokenType)) ∧
    GetTokenVersion "FA2" = (-1, some (wrapf "FA2" .ErrUnknownTokenType)) := by
  decide!

/-! ### The switches as tables -/

theorem evmSwitch_eq_table (K : CoinPkg) (c : Nat) :
    ethereumTokenTypeSwitch K c = firstCase "" c (evmTable K) := rfl

theorem ite_or_split {α : Type} (p q : Prop) [Decidable p] [Decidable q] (a b : α) :
    (if p ∨ q then a else b) = if p then a else if q then a else b := by
  by_cases hp : p <;> by_cases hq : q <;> simp [hp, hq]

theorem GetTokenType_eq_table (K : CoinPkg) (c : Nat) (tokenID : String)
    (h : K.IsEVM c = false) :
    GetTokenType K c tokenID = firstCase ("", false) c (switchTable K tokenID) := by
  have hE : ¬ K.IsEVM c = true := by simp [h]
  unfold GetTokenType
  rw [if_neg hE, ite_or_split]
  rfl

theorem GetTokenType_eq_evm (K : CoinPkg) (c : Nat) (tokenID : String)
    (h : K.IsEVM c = true) (tag : TokenType)
    (hg : GetEthereumTokenTypeByIndex K c = (tag, none)) :
    GetTokenType K c tokenID = (tag, true) := by
  unfold GetTokenType
  rw [if_pos h, hg]

theorem switchTable_keys (K : CoinPkg) (tokenID : String) :
    (switchTable K tokenID).map Prod.fst = switchChains K := rfl

theorem evmTable_keys (K : CoinPkg) : (evmTable K).map Prod.fst = evmSwitchChains K := rfl

theorem firstCase_of_nodup {α : Type} (d : α) (l : List (Nat × α))
    (hn : (l.map Prod.fst).Nodup) (k : Nat) (v : α) (h : (k, v) ∈ l) :
    firstCase d k l = v := by
  induction l with
  | nil => simp at h
  | cons e l ih =>
    obtain ⟨k0, v0⟩ := e
    rw [List.map_cons, List.nodup_cons] at hn
    unfold firstCase
    rcases List.mem_cons.mp h with h1 | h1
    · have hk : k = k0 := congrArg Prod.fst h1
      have hv : v = v0 := congrArg Prod.snd h1
      rw [if_pos hk, hv]
    · have hne : k ≠ k0 := by
        intro hk
        apply hn.1
        rw [← hk]
        exact List.mem_map.mpr ⟨(k, v), h1, rfl⟩
      rw [if_neg hne]
      exact ih hn.2 h1

theorem firstCase_getElem? {α : Type} (d : α) (c : Nat) (l : List (Nat × α))
    (h : c ∈ l.map Prod.fst) : ∃ i : Nat, l[i]? = some (c, firstCase d c l) := by
  induction l with
  | nil => simp at h
  | cons e l ih =>
    obtain ⟨k0, v0⟩ := e
    unfold firstCase
    by_cases hk : c = k0
    · rw [if_pos hk]
      exact ⟨0, by simp [hk]⟩
    · rw [if_neg hk]
      have hc : c ∈ l.map Prod.fst := by
        rw [List.map_cons] at h
        rcases List.mem_cons.mp h with h1 | h1
        · exact absurd h1 hk
        · exact h1
      obtain ⟨i, hi⟩ := ih hc
      exact ⟨i + 1, by simpa using hi⟩

theorem switchTags_injective_aux :
    ∀ i : Fin 27, ∀ j : Fin 27,
      i.val = 1 ∨ i.val = 2 ∨ j.val = 1 ∨ j.val = 2 ∨ switchTags[i.val]? ≠ switchTags[j.val]? ∨
        i.val = j.val ∨ (i.val = 12 ∧ j.val = 13) ∨ (i.val = 13 ∧ j.val = 12) := by
  decide!

theorem switchTags_injective (i j : Nat) (hi : i < 27) (hj : j < 27)
    (hi1 : i ≠ 1) (hi2 : i ≠ 2) (hj1 : j ≠ 1) (hj2 : j ≠ 2)
    (h : switchTags[i]? = switchTags[j]?) :
    i = j ∨ (i = 12 ∧ j = 13) ∨ (i = 13 ∧ j = 12) := by
  rcases switchTags_injective_aux ⟨i, hi⟩ ⟨j, hj⟩ with h1 | h1 | h1 | h1 | h1 | h1
  · exact absurd h1 hi1
  · exact absurd h1 hi2
  · exact absurd h1 hj1
  · exact absurd h1 hj2
  · exact absurd h h1
  · exact h1

theorem switchTable_tag (K : CoinPkg) (tokenID : String) (i : Nat) (hi : i < 27)
    (h1 : i ≠ 1) (h2 : i ≠ 2) :
    (switchTable K tokenID)[i]?.map (fun e => e.2) = switchTags[i]?.map (fun t => (t, true)) := by
  interval_cases i <;> first | rfl | exact absurd rfl h1 | exact absurd rfl h2

theorem switchTable_key (K : CoinPkg) (tokenID : String) (i : Nat) :
    (switchTable K tokenID)[i]?.map Prod.fst = (switchChains K)[i]? := by
  rw [← switchTable_keys K tokenID, List.getElem?_map]

theorem switch_position (K : CoinPkg) (c : Nat) (tokenID : String)
    (hc : c ∈ switchChains K) (ht : c ≠ K.TRON) (hr : c ≠ K.TERRA) :
    ∃ i : Nat, i < 27 ∧ i ≠ 1 ∧ i ≠ 2 ∧ (switchChains K)[i]? = some c ∧
      switchTags[i]? = some (firstCase ("", false) c (switchTable K tokenID)).1 := by
  obtain ⟨i, hi⟩ := firstCase_getElem? ("", false) c (switchTable K tokenID)
    (by rw [switchTable_keys]; exact hc)
  have hlt : i < 27 := by
    by_contra hge
    have hnone : (switchTable K tokenID)[i]? = none :=
      List.getElem?_eq_none (by
        have hl : (switchTable K tokenID).length = 27 := rfl
        omega)
    rw [hnone] at hi
    exact absurd hi (by simp)
  have hkey : (switchChains K)[i]? = some c := by
    rw [← switchTable_key K tokenID i, hi]
    rfl
  have h1 : i ≠ 1 := by
    intro h
    subst h
    have : (switchChains K)[1]? = some K.TRON := rfl
    rw [this] at hkey
    exact ht (Option.some.inj hkey).symm
  have h2 : i ≠ 2 := by
    intro h
    subst h
    have : (switchChains K)[2]? = some K.TERRA := rfl
    rw [this] at hkey
    exact hr (Option.some.inj hkey).symm
  refine ⟨i, hlt, h1, h2, hkey, ?_⟩
  have htag := switchTable_tag K tokenID i hlt h1 h2
  rw [hi] at htag
  rcases hs : switchTags[i]? with _ | t
  · rw [hs] at htag
    exact absurd htag (by simp)
  · rw [hs] at htag
    have hp : firstCase ("", false) c (switchTable K tokenID) = (t, true) :=
      Option.some.inj htag
    rw [hp]

theorem overlap_case (K : CoinPkg) (hevm : (evmSwitchChains K).Nodup)
    (hsw : (switchChains K).Nodup) (c : Nat) (tag : TokenType) (hne : tag ≠ "")
    (h1 : (c, tag) ∈ evmTable K) (tokenID : String)
    (h2 : (c, (tag, true)) ∈ switchTable K tokenID) :
    GetEthereumTokenTypeByIndex K c = (tag, none) ∧
      firstCase ("", false) c (switchTable K tokenID) = (tag, true) ∧
      GetTokenType K c tokenID = (tag, true) := by
  have hE : ethereumTokenTypeSwitch K c = tag := by
    rw [evmSwitch_eq_table]
    exact firstCase_of_nodup "" (evmTable K) (by rw [evmTable_keys]; exact hevm) c tag h1
  have hG : GetEthereumTokenTypeByIndex K c = (tag, none) := by
    unfold GetEthereumTokenTypeByIndex
    simp only [hE, hne, if_false]
  have hS : firstCase ("", false) c (switchTable K tokenID) = (tag, true) :=
    firstCase_of_nodup ("", false) (switchTable K tokenID)
      (by rw [switchTable_keys]; exact hsw) c (tag, true) h2
  refine ⟨hG, hS, ?_⟩
  rcases hb : K.IsEVM c with _ | _
  · rw [GetTokenType_eq_table K c tokenID hb, hS]
  · exact GetTokenType_eq_evm K c tokenID hb tag hG


/-- Claim C11, the counterexample. With an `IsEVM` that sends every chain
through the switch, the two different listed chains HECO and HARMONY, neither
of them Tron or Terra, get the same tag `HRC20`: they share one `case`
(`token.go:222-223`). -/
theorem GetTokenType_switch_not_injective :
    switchOnlyCoins.HECO ∈ switchChains switchOnlyCoins ∧
    switchOnlyCoins.HARMONY ∈ switchChains switchOnlyCoins ∧
    switchOnlyCoins.IsEVM switchOnlyCoins.HECO = false ∧
    switchOnlyCoins.IsEVM switchOnlyCoins.HARMONY = false ∧
    switchOnlyCoins.HECO ≠ switchOnlyCoins.HARMONY ∧
    switchOnlyCoins.HECO ≠ switchOnlyCoins.TRON ∧ switchOnlyCoins.HECO ≠ switchOnlyCoins.TERRA ∧
    switchOnlyCoins.HARMONY ≠ switchOnlyCoins.TRON ∧
    switchOnlyCoins.HARMONY ≠ switchOnlyCoins.TERRA ∧
    GetTokenType switchOnlyCoins switchOnlyCoins.HECO "" = ("HRC20", true) ∧
    GetTokenType switchOnlyCoins switchOnlyCoins.HARMONY "" = ("HRC20", true) := by
  decide

/-- Claim C11, amended. The fixed chain→tag mapping of the switch of
`GetTokenType` is one-to-one apart from the pair HECO and HARMONY, which share
`HRC20`: for two different listed chains, neither of them Tron or Terra and both
going through the switch, the tags returned are different unless the two chains
are HECO and HARMONY. -/
theorem GetTokenType_switch_injective (K : CoinPkg) (c1 c2 : Nat) (a b : String)
    (h1 : c1 ∈ switchChains K) (h2 : c2 ∈ switchChains K)
    (e1 : K.IsEVM c1 = false) (e2 : K.IsEVM c2 = false)
    (t1 : c1 ≠ K.TRON) (r1 : c1 ≠ K.TERRA) (t2 : c2 ≠ K.TRON) (r2 : c2 ≠ K.TERRA)
    (hne : c1 ≠ c2)
    (hx : ¬ (c1 = K.HECO ∧ c2 = K.HARMONY)) (hy : ¬ (c1 = K.HARMONY ∧ c2 = K.HECO)) :
    (GetTokenType K c1 a).1 ≠ (GetTokenType K c2 b).1 := by
  rw [GetTokenType_eq_table K c1 a e1, GetTokenType_eq_table K c2 b e2]
  obtain ⟨i, hi, hi1, hi2, hki, hti⟩ := switch_position K c1 a h1 t1 r1
  obtain ⟨j, hj, hj1, hj2, hkj, htj⟩ := switch_position K c2 b h2 t2 r2
  intro heq
  rw [heq] at hti
  rcases switchTags_injective i j hi hj hi1 hi2 hj1 hj2 (hti.trans htj.symm) with h | h | h
  · subst h
    rw [hki] at hkj
    exact hne (Option.some.inj hkj)
  · obtain ⟨ha, hb⟩ := h
    subst ha
    subst hb
    have e12 : (switchChains K)[12]? = some K.HECO := rfl
    have e13 : (switchChains K)[13]? = some K.HARMONY := rfl
    rw [e12] at hki
    rw [e13] at hkj
    exact hx ⟨(Option.some.inj hki).symm, (Option.some.inj hkj).symm⟩
  · obtain ⟨ha, hb⟩ := h
    subst ha
    subst hb
    have e12 : (switchChains K)[12]? = some K.HECO := rfl
    have e13 : (switchChains K)[13]? = some K.HARMONY := rfl
    rw [e13] at hki
    rw [e12] at hkj
    exact hy ⟨(Option.some.inj hki).symm, (Option.some.inj hkj).symm⟩

/-- Instance of the amended C11 at the chains Bitcoin and Binance of
`switchOnlyCoins`, whose tags `BRC20` and `BEP2` differ. -/
theorem GetTokenType_switch_injective_witness :
    (GetTokenType switchOnlyCoins switchOnlyCoins.BITCOIN "").1 = "BRC20" ∧
    (GetTokenType switchOnlyCoins switchOnlyCoins.BINANCE "").1 = "BEP2" ∧
    (GetTokenType switchOnlyCoins switchOnlyCoins.BITCOIN "").1 ≠
      (GetTokenType switchOnlyCoins switchOnlyCoins.BINANCE "").1 :=
  ⟨by decide, by decide,
    GetTokenType_switch_injective switchOnlyCoins switchOnlyCoins.BITCOIN
      switchOnlyCoins.BINANCE "" "" (by decide) (by decide) (by decide) (by decide)
      (by decide) (by decide) (by decide) (by decide) (by decide) (by decide) (by decide)⟩

/-- Claim C20. The two classification tables agree where they overlap. When the
case constants of each switch are pairwise different (as Go requires of a
switch), every chain that has a case in both `GetEthereumTokenTypeByIndex` and
the switch of `GetTokenType` (HECO, CELO, EVMOS, OKC, TON, SUI, STRIDE, NEUTRON)
gets the same non-empty tag from both, so that `GetTokenType` returns the same
`(tag, true)` whatever `coin.IsEVM` answers. -/
theorem GetTokenType_overlap_agree (K : CoinPkg) (hevm : (evmSwitchChains K).Nodup)
    (hsw : (switchChains K).Nodup) (c : Nat) (hc : c ∈ overlapChains K)
    (tokenID : String) :
    ∃ tag : TokenType, tag ≠ "" ∧
      GetEthereumTokenTypeByIndex K c = (tag, none) ∧
      firstCase ("", false) c (switchTable K tokenID) = (tag, true) ∧
      ∀ f : Nat → Bool, GetTokenType { K with IsEVM := f } c tokenID = (tag, true) := by
  have key : ∀ tag : TokenType, tag ≠ "" → (c, tag) ∈ evmTable K →
      (c, (tag, true)) ∈ switchTable K tokenID →
      ∃ tag : TokenType, tag ≠ "" ∧
        GetEthereumTokenTypeByIndex K c = (tag, none) ∧
        firstCase ("", false) c (switchTable K tokenID) = (tag, true) ∧
        ∀ f : Nat → Bool, GetTokenType { K with IsEVM := f } c tokenID = (tag, true) := by
    intro tag hne m1 m2
    obtain ⟨g1, g2, _⟩ := overlap_case K hevm hsw c tag hne m1 tokenID m2
    exact ⟨tag, hne, g1, g2, fun f =>
      (overlap_case { K with IsEVM := f } hevm hsw c tag hne m1 tokenID m2).2.2⟩
  simp only [overlapChains, List.mem_cons, List.mem_singleton, List.not_mem_nil,
    or_false] at hc
  rcases hc with h | h | h | h | h | h | h | h <;> subst h
  · exact key HRC20 (by decide) (by simp [evmTable]) (by simp [switchTable])
  · exact key CELO (by decide) (by simp [evmTable]) (by simp [switchTable])
  · exact key EVMOS_ERC20 (by decide) (by simp [evmTable]) (by simp [switchTable])
  · exact key KIP20 (by decide) (by simp [evmTable]) (by simp [switchTable])
  · exact key TON (by decide) (by simp [evmTable]) (by simp [switchTable])
  · exact key SUI (by decide) (by simp [evmTable]) (by simp [switchTable])
  · exact key STRIDE (by decide) (by simp [evmTable]) (by simp [switchTable])
  · exact key NEUTRON (by decide) (by simp [evmTable]) (by simp [switchTable])

/-- Instance of C20 at the chain HECO of `sampleCoins`, whose case constants are
pairwise different: the tag is `HRC20` from both tables. -/
theorem GetTokenType_overlap_agree_witness :
    (evmSwitchChains sampleCoins).Nodup ∧ (switchChains sampleCoins).Nodup ∧
    sampleCoins.HECO ∈ overlapChains sampleCoins ∧
    GetTokenType sampleCoins sampleCoins.HECO "" = ("HRC20", true) ∧
    GetTokenType switchOnlyCoins sampleCoins.HECO "" = ("HRC20", true) ∧
    ∃ tag : TokenType, tag ≠ "" ∧
      GetEthereumTokenTypeByIndex sampleCoins sampleCoins.HECO = (tag, none) ∧
      firstCase ("", false) sampleCoins.HECO (switchTable sampleCoins "") = (tag, true) ∧
      ∀ f : Nat → Bool,
        GetTokenType { sampleCoins with IsEVM := f } sampleCoins.HECO "" = (tag, true) :=
  ⟨by decide, by decide, by decide, by decide, by decide,
    GetTokenType_overlap_agree sampleCoins (by decide) (by decide) sampleCoins.HECO
      (by decide) ""⟩

/-! ### The models of `tx.go` pass the tests of `tx_test.go` -/

theorem TestCleanMemo_passes :
    ∀ tc ∈ TestCleanMemo_cases, cleanMemo tc.1 = tc.2 := by
  decide

theorem TestTxs_CleanMemos_passes :
    ∀ tc ∈ TestTxs_CleanMemos_cases, (CleanMemos [tc.1]).map Tx.Memo = [tc.2] := by
  decide

theorem TestTx_GetAddresses_passes :
    ∀ tc ∈ TestTx_GetAddresses_cases, (GetAddresses tc.1).Perm tc.2 := by
  decide

theorem TestTx_GetDirection_passes :
    ∀ tc ∈ TestTx_GetDirection_cases, GetDirection tc.1 tc.2.1 = some tc.2.2 := by
  decide

theorem TestUTXOValueByAddress_passes :
    ∀ tc ∈ TestUTXOValueByAddress_cases,
      GetUTXOValueFor tc.1 tc.2.1 = UTXOValue.amount tc.2.2 := by
  decide

/-! ### Decimal text of arbitrary-precision magnitudes -/

theorem utf8_digit (d : Nat) (h : 48 ≤ d ∧ d ≤ 57) :
    (String.utf8EncodeChar (Char.ofNat d)).map UInt8.toNat = [d] := by
  obtain ⟨h1, h2⟩ := h
  interval_cases d <;> rfl

theorem bytes_mk_digits (ds : List Nat) (h : allDigits ds) :
    bytes (String.mk (ds.map Char.ofNat)) = ds := by
  unfold bytes
  induction ds with
  | nil => rfl
  | cons d ds ih =>
    rw [allDigits_cons] at h
    have hd := utf8_digit d h.1
    have ht := ih h.2
    simp only [List.map_cons, List.flatMap_cons] at ht ⊢
    rw [hd, ht]
    rfl

theorem decimalBytes_allDigits (fuel : Nat) :
    ∀ (n : Nat) (acc : List Nat), allDigits acc → allDigits (decimalBytes fuel n acc) := by
  induction fuel with
  | zero => intro n acc h; exact h
  | succ fuel ih =>
    intro n acc h
    unfold decimalBytes
    by_cases hn : n < 10
    · rw [if_pos hn, allDigits_cons]
      exact ⟨by omega, h⟩
    · rw [if_neg hn]
      apply ih
      rw [allDigits_cons]
      exact ⟨by omega, h⟩

theorem decimalBytes_ne_nil (fuel : Nat) :
    ∀ (n : Nat) (acc : List Nat), 0 < fuel ∨ acc ≠ [] → decimalBytes fuel n acc ≠ [] := by
  induction fuel with
  | zero =>
    intro n acc h
    rcases h with h | h
    · omega
    · exact h
  | succ fuel ih =>
    intro n acc _
    unfold decimalBytes
    by_cases hn : n < 10
    · rw [if_pos hn]; simp
    · rw [if_neg hn]
      exact ih _ _ (Or.inr (by simp))

theorem fromDigits_decimalBytes (fuel : Nat) :
    ∀ (n : Nat) (acc : List Nat), n < fuel →
      fromDigits 0 (decimalBytes fuel n acc) = fromDigits n acc := by
  induction fuel with
  | zero => intro n acc h; omega
  | succ fuel ih =>
    intro n acc h
    unfold decimalBytes
    by_cases hn : n < 10
    · rw [if_pos hn, fromDigits_cons]
      congr 1
      omega
    · rw [if_neg hn, ih (n / 10) _ (by omega), fromDigits_cons]
      congr 1
      omega

theorem parseAmount_formatAmount (n : Nat) : parseAmount (formatAmount n) = some n := by
  have hd : allDigits (decimalBytes (n + 1) n []) :=
    decimalBytes_allDigits (n + 1) n [] (by intro b hb; simp at hb)
  have hne : decimalBytes (n + 1) n [] ≠ [] :=
    decimalBytes_ne_nil (n + 1) n [] (Or.inl (by omega))
  have hv : fromDigits 0 (decimalBytes (n + 1) n []) = n := by
    rw [fromDigits_decimalBytes (n + 1) n [] (by omega)]
    rfl
  unfold parseAmount formatAmount
  rw [bytes_mk_digits _ hd, if_pos ⟨hne, hd⟩, hv]

theorem formatAmount_injective (a b : Nat) (h : formatAmount a = formatAmount b) : a = b := by
  have := congrArg parseAmount h
  rw [parseAmount_formatAmount, parseAmount_formatAmount] at this
  exact Option.some.inj this

theorem parseAmount_amountOf (o : TxOutput) (h : parseAmount o.Value ≠ none) :
    parseAmount o.Value = some (amountOf o) := by
  unfold amountOf
  rcases hp : parseAmount o.Value with _ | v
  · exact absurd hp h
  · rfl

theorem wellFormed_any (os : List TxOutput) (h : ∀ o ∈ os, parseAmount o.Value ≠ none) :
    os.any (fun o => (parseAmount o.Value).isNone) = false := by
  rw [List.any_eq_false]
  intro o ho
  have := h o ho
  rcases hp : parseAmount o.Value with _ | v
  · exact absurd hp this
  · simp

theorem mem_addressesOf_ne_nil (os : List TxOutput) (a : String) (h : a ∈ addressesOf os) :
    os ≠ [] := by
  intro hn
  rw [hn] at h
  simp [addressesOf] at h

theorem dedup_eq_singleton (l : List String) (a : String) (hne : l ≠ [])
    (h : ∀ x ∈ l, x = a) : l.dedup = [a] := by
  induction l with
  | nil => exact absurd rfl hne
  | cons x l ih =>
    have hx : x = a := h x (List.mem_cons_self x l)
    subst hx
    by_cases hl : l = []
    · subst hl; rfl
    · have hall : ∀ y ∈ l, y = x := fun y hy => h y (List.mem_cons_of_mem x hy)
      have hmem : x ∈ l := by
        obtain ⟨y, hy⟩ := List.exists_mem_of_ne_nil l hl
        rw [← hall y hy]
        exact hy
      rw [List.dedup_cons_of_mem hmem]
      exact ih hl hall


/-- Claim C12. Memo sanitizer: for every text `s`, `cleanMemo s` is `s` itself
when `s` parses fully as a non-negative integer literal (at least one decimal
digit and nothing else) and the empty text otherwise, as for the empty text and
for the non-numeric texts of the tests; the function is total, it has no
failing case. -/
theorem cleanMemo_spec (s : String) :
    (isNonNegativeInteger s = true ↔ bytes s ≠ [] ∧ allDigits (bytes s)) ∧
    (isNonNegativeInteger s = true → cleanMemo s = s) ∧
    (isNonNegativeInteger s = false → cleanMemo s = "") ∧
    cleanMemo "" = "" ∧ cleanMemo "non_number" = "" ∧ cleanMemo "test" = "" ∧
    cleanMemo "1" = "1" := by
  refine ⟨by simp [isNonNegativeInteger], fun h => ?_, fun h => ?_, by decide, by decide,
    by decide, by decide⟩
  · unfold cleanMemo
    rw [if_pos h]
  · unfold cleanMemo
    rw [h]
    rfl

/-- Instance of C12 at the memo `0012345`, which is kept unchanged. -/
theorem cleanMemo_spec_witness :
    isNonNegativeInteger "0012345" = true ∧ cleanMemo "0012345" = "0012345" :=
  ⟨by decide, (cleanMemo_spec "0012345").2.1 (by decide)⟩

/-- Claim C13. For every record whose kind is `StakeDelegate`,
`StakeUndelegate`, `StakeRedelegate`, `StakeClaimRewards` or `StakeCompound`,
`GetAddresses` returns exactly the single address `from`, whatever `to`, the
inputs and the outputs are. -/
theorem GetAddresses_staking (t : Tx)
    (h : t.Kind ∈ [TxStakeDelegate, TxStakeUndelegate, TxStakeRedelegate,
      TxStakeClaimRewards, TxStakeCompound]) :
    GetAddresses t = [t.From] := by
  simp only [List.mem_cons, List.mem_singleton, List.not_mem_nil, or_false] at h
  unfold GetAddresses
  rcases h with h | h | h | h | h <;> simp [h]

/-- Instance of C13 at the record of the test `redelegation`, whose `to` is a
validator. -/
theorem GetAddresses_staking_witness :
    GetAddresses { Tx.zero with Kind := TxStakeRedelegate, From := "from", To := "to_validator" }
      = ["from"] :=
  GetAddresses_staking
    { Tx.zero with Kind := TxStakeRedelegate, From := "from", To := "to_validator" }
    (by decide)

/-- Claim C14. For every record of kind `Transfer` with inputs or outputs,
`GetAddresses` returns each address that occurs in the inputs or in the outputs
exactly once, and nothing else (the union of the two address sets, in some
order); `from` and `to` play no part. -/
theorem GetAddresses_utxo (t : Tx) (hk : t.Kind = TxTransfer)
    (hp : t.Inputs ≠ [] ∨ t.Outputs ≠ []) :
    (GetAddresses t).Nodup ∧
    (∀ a : String, a ∈ GetAddresses t ↔
      a ∈ addressesOf t.Inputs ∨ a ∈ addressesOf t.Outputs) ∧
    (∀ f g : String, GetAddresses { t with From := f, To := g } = GetAddresses t) := by
  have hg : ∀ u : Tx, u.Kind = TxTransfer → (u.Inputs ≠ [] ∨ u.Outputs ≠ []) →
      GetAddresses u = (addressesOf u.Inputs ++ addressesOf u.Outputs).dedup := by
    intro u h1 h2
    unfold GetAddresses
    rw [if_pos ⟨h2, h1⟩]
  refine ⟨?_, ?_, ?_⟩
  · rw [hg t hk hp]
    exact List.nodup_dedup _
  · intro a
    rw [hg t hk hp, List.mem_dedup, List.mem_append]
  · intro f g
    rw [hg t hk hp, hg { t with From := f, To := g } hk hp]

/-- Instance of C14 at the record of the test `utxo`. -/
theorem GetAddresses_utxo_witness :
    GetAddresses { Tx.zero with
      Kind := TxTransfer, From := "from_utxo", To := "from_utxo",
      Inputs := [⟨"from_utxo", ""⟩],
      Outputs := [⟨"from_utxo", ""⟩, ⟨"to_utxo", ""⟩] } = ["from_utxo", "to_utxo"] ∧
    (GetAddresses { Tx.zero with
      Kind := TxTransfer, From := "from_utxo", To := "from_utxo",
      Inputs := [⟨"from_utxo", ""⟩],
      Outputs := [⟨"from_utxo", ""⟩, ⟨"to_utxo", ""⟩] }).Nodup :=
  ⟨by decide, (GetAddresses_utxo { Tx.zero with
      Kind := TxTransfer, From := "from_utxo", To := "from_utxo",
      Inputs := [⟨"from_utxo", ""⟩],
      Outputs := [⟨"from_utxo", ""⟩, ⟨"to_utxo", ""⟩] } rfl (Or.inl (by decide))).1⟩

/-- Claim C15. For every record without a preset direction and every queried
address that takes part in its inputs or outputs, `GetDirection` returns `Self`
when the address occurs among both the input and the output addresses,
`Outgoing` when it occurs among the inputs only and `Incoming` when it occurs
among the outputs only. -/
theorem GetDirection_utxo (t : Tx) (address : String) (hd : t.Direction = none)
    (hp : address ∈ addressesOf t.Inputs ∨ address ∈ addressesOf t.Outputs) :
    (address ∈ addressesOf t.Inputs → address ∈ addressesOf t.Outputs →
      GetDirection t address = some DirectionSelf) ∧
    (address ∈ addressesOf t.Inputs → address ∉ addressesOf t.Outputs →
      GetDirection t address = some DirectionOutgoing) ∧
    (address ∉ addressesOf t.Inputs → address ∈ addressesOf t.Outputs →
      GetDirection t address = some DirectionIncoming) := by
  have hpop : t.Inputs ≠ [] ∨ t.Outputs ≠ [] := by
    rcases hp with h | h
    · exact Or.inl (mem_addressesOf_ne_nil _ _ h)
    · exact Or.inr (mem_addressesOf_ne_nil _ _ h)
  unfold GetDirection
  rw [hd]
  simp only [if_pos hpop]
  refine ⟨fun h1 h2 => ?_, fun h1 h2 => ?_, fun h1 h2 => ?_⟩
  · rw [if_pos ⟨h1, h2⟩]
  · rw [if_neg (fun h => h2 h.2), if_pos h1]
  · rw [if_neg (fun h => h1 h.1), if_neg h1, if_pos h2]

/-- Instance of C15 at the record of the test `utxo_self`. -/
theorem GetDirection_utxo_witness :
    GetDirection { Tx.zero with Inputs := [⟨"sender", ""⟩], Outputs := [⟨"sender", ""⟩] }
      "sender" = some DirectionSelf :=
  (GetDirection_utxo { Tx.zero with Inputs := [⟨"sender", ""⟩], Outputs := [⟨"sender", ""⟩] }
    "sender" rfl (Or.inl (by decide))).1 (by decide) (by decide)

/-- Claim C16, the counterexample. The test `stake_redelegate` of
`TestTx_GetDirection` queries an account-style record of kind `StakeRedelegate`
with the address `owner`, which is not its `from`, and expects `Outgoing`; the
rule of the claim gives `Incoming` there. -/
theorem GetDirection_stake_redelegate_test :
    stakeRedelegateTx.Direction = none ∧ stakeRedelegateTx.Inputs = [] ∧
    stakeRedelegateTx.Outputs = [] ∧ stakeRedelegateTx.Kind = TxStakeRedelegate ∧
    "owner" ≠ stakeRedelegateTx.From ∧
    (stakeRedelegateTx, "owner", DirectionOutgoing) ∈ TestTx_GetDirection_cases ∧
    GetDirection stakeRedelegateTx "owner" = some DirectionOutgoing ∧
    specStakeDelegateDirection stakeRedelegateTx "owner" = DirectionIncoming := by
  decide

/-- Claim C16, amended. For every account-style record (no preset direction, no
inputs and no outputs) of kind `StakeRedelegate` or `StakeDelegate`:
`GetDirection` returns `Outgoing` when the address is `from`, `Incoming` when it
is `to` and not `from`, and `Outgoing` when it is neither. -/
theorem GetDirection_stake_delegate (t : Tx) (address : String)
    (hd : t.Direction = none) (hi : t.Inputs = []) (ho : t.Outputs = [])
    (hk : t.Kind = TxStakeRedelegate ∨ t.Kind = TxStakeDelegate) :
    (address = t.From → GetDirection t address = some DirectionOutgoing) ∧
    (address ≠ t.From → address = t.To → GetDirection t address = some DirectionIncoming) ∧
    (address ≠ t.From → address ≠ t.To → GetDirection t address = some DirectionOutgoing) := by
  have hpop : ¬ (t.Inputs ≠ [] ∨ t.Outputs ≠ []) := by simp [hi, ho]
  have hG : GetDirection t address =
      if address = t.From then some DirectionOutgoing
      else if address = t.To then some DirectionIncoming
      else some DirectionOutgoing := by
    unfold GetDirection
    rw [hd]
    simp only [if_neg hpop]
    rcases hk with hk | hk <;> rw [hk]
  rw [hG]
  refine ⟨fun a => ?_, fun a b => ?_, fun a b => ?_⟩
  · rw [if_pos a]
  · rw [if_neg a, if_pos b]
  · rw [if_neg a, if_neg b]

/-- Instance of the amended C16 at the record of the test `stake_delegate`,
queried with its `from`. -/
theorem GetDirection_stake_delegate_witness :
    GetDirection { Tx.zero with From := "owner", To := "delegator", Kind := TxStakeDelegate }
      "owner" = some DirectionOutgoing :=
  (GetDirection_stake_delegate
    { Tx.zero with From := "owner", To := "delegator", Kind := TxStakeDelegate } "owner"
    rfl rfl rfl (Or.inr rfl)).1 rfl

/-- Claim C17. For every account-style record (no preset direction, no inputs
and no outputs) whose kind has no staking rule of its own (`Transfer`,
`ContractCall`, `Swap`, `Undefined` among them): `GetDirection` returns `Self`
when `from`, `to` and the address are equal; otherwise `Outgoing` when the
address is `from`; otherwise `Incoming` when the address is `to`. `Self` is
decided first. -/
theorem GetDirection_account (t : Tx) (address : String)
    (hd : t.Direction = none) (hi : t.Inputs = []) (ho : t.Outputs = [])
    (h1 : t.Kind ≠ TxStakeUndelegate) (h2 : t.Kind ≠ TxStakeClaimRewards)
    (h3 : t.Kind ≠ TxStakeRedelegate) (h4 : t.Kind ≠ TxStakeDelegate) :
    (t.From = t.To → t.To = address → GetDirection t address = some DirectionSelf) ∧
    (¬ (t.From = t.To ∧ t.To = address) → address = t.From →
      GetDirection t address = some DirectionOutgoing) ∧
    (¬ (t.From = t.To ∧ t.To = address) → address ≠ t.From → address = t.To →
      GetDirection t address = some DirectionIncoming) := by
  have hG : GetDirection t address =
      if t.From = t.To ∧ t.To = address then some DirectionSelf
      else if address = t.From then some DirectionOutgoing
      else if address = t.To then some DirectionIncoming
      else none := by
    have hpop : ¬ (t.Inputs ≠ [] ∨ t.Outputs ≠ []) := by simp [hi, ho]
    unfold GetDirection
    rw [hd]
    rw [if_neg hpop]
    rcases hk : t.Kind with _ | _ | _ | _ | _ | _ | _ | _ | _ | _ | _
    all_goals first
      | rfl
      | exact absurd hk h1
      | exact absurd hk h2
      | exact absurd hk h3
      | exact absurd hk h4
  rw [hG]
  refine ⟨fun a b => ?_, fun a b => ?_, fun a b c => ?_⟩
  · rw [if_pos ⟨a, b⟩]
  · rw [if_neg a, if_pos b]
  · rw [if_neg a, if_neg b, if_pos c]

/-- Instance of C17 at the record of the test `self`, of kind `Transfer`. -/
theorem GetDirection_account_witness :
    GetDirection { Tx.zero with From := "sender", To := "sender", Kind := TxTransfer } "sender"
      = some DirectionSelf :=
  (GetDirection_account
    { Tx.zero with From := "sender", To := "sender", Kind := TxTransfer } "sender"
    rfl rfl rfl (by decide) (by decide) (by decide) (by decide)).1 rfl rfl


/-- Claim C18. For every record whose value texts are all well-formed decimal
magnitudes and every address that occurs among the output addresses and not
among the input addresses, `GetUTXOValueFor` returns, with a nil error, the
decimal text of the exact sum of the values of the outputs addressed to it. The
sum is taken in arbitrary precision: the text reads back as the sum itself, and
for a sum of `2^64` or more it is not the text of the sum reduced modulo
`2^64`. -/
theorem GetUTXOValueFor_receiver (t : Tx) (address : String)
    (hwf : ∀ o ∈ t.Inputs ++ t.Outputs, parseAmount o.Value ≠ none)
    (hout : address ∈ addressesOf t.Outputs) (hin : address ∉ addressesOf t.Inputs) :
    GetUTXOValueFor t address = UTXOValue.amount (formatAmount (sumTo t.Outputs address)) ∧
    parseAmount (formatAmount (sumTo t.Outputs address)) = some (sumTo t.Outputs address) ∧
    (∀ o ∈ t.Outputs, parseAmount o.Value = some (amountOf o)) ∧
    (2 ^ 64 ≤ sumTo t.Outputs address →
      formatAmount (sumTo t.Outputs address) ≠
        formatAmount (sumTo t.Outputs address % 2 ^ 64)) := by
  refine ⟨?_, parseAmount_formatAmount _, ?_, ?_⟩
  · have hne : ¬ (t.Inputs = [] ∧ t.Outputs = []) :=
      fun h => mem_addressesOf_ne_nil _ _ hout h.2
    unfold GetUTXOValueFor
    rw [if_neg hne, wellFormed_any _ hwf]
    simp only [Bool.false_eq_true, if_false]
    rw [if_neg hin, if_pos hout]
  · intro o ho
    exact parseAmount_amountOf o (hwf o (List.mem_append_right _ ho))
  · intro hbig heq
    have h1 := formatAmount_injective _ _ heq
    have h2 : sumTo t.Outputs address % 2 ^ 64 < 2 ^ 64 := Nat.mod_lt _ (by norm_num)
    omega

/-- Instance of C18 at the record of the test `uint64 overflow`: the value
58446744073709551620, which is more than `2^64`, is returned as it is. -/
theorem GetUTXOValueFor_receiver_witness :
    (2 : Nat) ^ 64 ≤ 58446744073709551620 ∧
    sumTo [⟨"addr", "58446744073709551620"⟩] "addr" = 58446744073709551620 ∧
    GetUTXOValueFor { Tx.zero with Outputs := [⟨"addr", "58446744073709551620"⟩] } "addr" =
      UTXOValue.amount "58446744073709551620" ∧
    GetUTXOValueFor { Tx.zero with Outputs := [⟨"addr", "58446744073709551620"⟩] } "addr" =
      UTXOValue.amount (formatAmount (sumTo [⟨"addr", "58446744073709551620"⟩] "addr")) :=
  ⟨by decide, by decide, by decide,
    (GetUTXOValueFor_receiver
      { Tx.zero with Outputs := [⟨"addr", "58446744073709551620"⟩] } "addr"
      (by decide) (by decide) (by decide)).1⟩

/-- Claim C19. For every record whose value texts are all well-formed decimal
magnitudes and every address that occurs among the input addresses (a
spender): when every output is addressed to that address, `GetUTXOValueFor`
returns the total of all the output values; when the outputs that are not
addressed to it all go to one other address, it returns the sum of the outputs
addressed to that other address, without the change that returns to the
spender. -/
theorem GetUTXOValueFor_spender (t : Tx) (address : String)
    (hwf : ∀ o ∈ t.Inputs ++ t.Outputs, parseAmount o.Value ≠ none)
    (hin : address ∈ addressesOf t.Inputs) :
    ((∀ o ∈ t.Outputs, o.Address = address) →
      GetUTXOValueFor t address = UTXOValue.amount (formatAmount (sumAll t.Outputs))) ∧
    (∀ other : String, other ≠ address → other ∈ addressesOf t.Outputs →
      (∀ o ∈ t.Outputs, o.Address = address ∨ o.Address = other) →
      GetUTXOValueFor t address = UTXOValue.amount (formatAmount (sumTo t.Outputs other))) ∧
    (∀ n : Nat, parseAmount (formatAmount n) = some n) ∧
    (∀ o ∈ t.Outputs, parseAmount o.Value = some (amountOf o)) := by
  have hne : ¬ (t.Inputs = [] ∧ t.Outputs = []) :=
    fun h => mem_addressesOf_ne_nil _ _ hin h.1
  have hG : GetUTXOValueFor t address =
      match ((addressesOf t.Outputs).filter (fun a => a ≠ address)).dedup with
      | [] => UTXOValue.amount (formatAmount (sumAll t.Outputs))
      | [other] => UTXOValue.amount (formatAmount (sumTo t.Outputs other))
      | _ => UTXOValue.undocumented := by
    unfold GetUTXOValueFor
    rw [if_neg hne, wellFormed_any _ hwf]
    simp only [Bool.false_eq_true, if_false]
    rw [if_pos hin]
  refine ⟨fun hall => ?_, fun other hne2 hmem hall => ?_, parseAmount_formatAmount,
    fun o ho => parseAmount_amountOf o (hwf o (List.mem_append_right _ ho))⟩
  · have hnil : (addressesOf t.Outputs).filter (fun a => a ≠ address) = [] := by
      rw [List.filter_eq_nil_iff]
      intro a ha
      obtain ⟨o, ho, hoa⟩ := List.mem_map.mp ha
      have := hall o ho
      simp [← hoa, this]
    rw [hG, hnil]
    rfl
  · have hone : ((addressesOf t.Outputs).filter (fun a => a ≠ address)).dedup = [other] := by
      apply dedup_eq_singleton
      · intro hnil
        rw [List.filter_eq_nil_iff] at hnil
        have := hnil other hmem
        simp [hne2] at this
      · intro x hx
        rw [List.mem_filter] at hx
        obtain ⟨hx1, hx2⟩ := hx
        obtain ⟨o, ho, hoa⟩ := List.mem_map.mp hx1
        rcases hall o ho with h | h
        · rw [← hoa, h] at hx2
          simp at hx2
        · rw [← hoa, h]
    rw [hG, hone]

/-- Instance of C19 at the record of the test `transfer_out_with_utxo`: of the
outputs `addr`: 100 and `addr1`: 800 the spender `addr` is said to have moved
800. -/
theorem GetUTXOValueFor_spender_witness :
    GetUTXOValueFor { Tx.zero with
      Inputs := [⟨"addr", "1000"⟩],
      Outputs := [⟨"addr", "100"⟩, ⟨"addr1", "800"⟩] } "addr" = UTXOValue.amount "800" ∧
    GetUTXOValueFor { Tx.zero with
      Inputs := [⟨"addr", "1000"⟩],
      Outputs := [⟨"addr", "900"⟩, ⟨"addr", "100"⟩] } "addr" = UTXOValue.amount "1000" ∧
    GetUTXOValueFor { Tx.zero with
      Inputs := [⟨"addr", "1000"⟩],
      Outputs := [⟨"addr", "100"⟩, ⟨"addr1", "800"⟩] } "addr" =
      UTXOValue.amount (formatAmount (sumTo [⟨"addr", "100"⟩, ⟨"addr1", "800"⟩] "addr1")) :=
  ⟨by decide, by decide,
    (GetUTXOValueFor_spender { Tx.zero with
      Inputs := [⟨"addr", "1000"⟩],
      Outputs := [⟨"addr", "100"⟩, ⟨"addr1", "800"⟩] } "addr"
      (by decide) (by decide)).2.1 "addr1" (by decide) (by decide) (by decide)⟩

/-! ### The table of `GetEthereumTokenTypeByIndex` -/

theorem evmTable_tags (K : CoinPkg) : (evmTable K).map Prod.snd = evmTags := rfl

theorem firstCase_of_not_mem {α : Type} (d : α) (c : Nat) (l : List (Nat × α))
    (h : c ∉ l.map Prod.fst) : firstCase d c l = d := by
  induction l with
  | nil => rfl
  | cons e l ih =>
    obtain ⟨k0, v0⟩ := e
    rw [List.map_cons, List.mem_cons, not_or] at h
    unfold firstCase
    rw [if_neg h.1]
    exact ih h.2

theorem evmTags_injective_aux :
    ∀ i : Fin 36, ∀ j : Fin 36, evmTags[i.val]? ≠ evmTags[j.val]? ∨ i.val = j.val := by
  decide!

theorem evmTags_nonempty : ∀ i : Fin 36, evmTags[i.val]? ≠ some "" := by
  decide!

theorem evm_position (K : CoinPkg) (c : Nat) (hc : c ∈ evmSwitchChains K) :
    ∃ i : Nat, i < 36 ∧ (evmSwitchChains K)[i]? = some c ∧
      evmTags[i]? = some (ethereumTokenTypeSwitch K c) := by
  obtain ⟨i, hi⟩ := firstCase_getElem? "" c (evmTable K) (by rw [evmTable_keys]; exact hc)
  have hlt : i < 36 := by
    by_contra hge
    have hnone : (evmTable K)[i]? = none :=
      List.getElem?_eq_none (by
        have hl : (evmTable K).length = 36 := rfl
        omega)
    rw [hnone] at hi
    exact absurd hi (by simp)
  refine ⟨i, hlt, ?_, ?_⟩
  · rw [← evmTable_keys K, List.getElem?_map, hi]
    rfl
  · rw [← evmTable_tags K, List.getElem?_map, hi, evmSwitch_eq_table]
    rfl

theorem evmSwitch_ne_empty (K : CoinPkg) (c : Nat) (hc : c ∈ evmSwitchChains K) :
    ethereumTokenTypeSwitch K c ≠ "" := by
  obtain ⟨i, hlt, _, ht⟩ := evm_position K c hc
  intro he
  rw [he] at ht
  exact evmTags_nonempty ⟨i, hlt⟩ ht

theorem evmSwitch_empty (K : CoinPkg) (c : Nat) (hc : c ∉ evmSwitchChains K) :
    ethereumTokenTypeSwitch K c = "" := by
  rw [evmSwitch_eq_table]
  exact firstCase_of_not_mem "" c (evmTable K) (by rw [evmTable_keys]; exact hc)

theorem evm_ok_iff (K : CoinPkg) (c : Nat) :
    (GetEthereumTokenTypeByIndex K c).2 = none ↔ c ∈ evmSwitchChains K := by
  unfold GetEthereumTokenTypeByIndex
  by_cases hc : c ∈ evmSwitchChains K
  · simp only [evmSwitch_ne_empty K c hc, if_false, hc]
  · simp [evmSwitch_empty K c hc, hc]

theorem evm_ok_fst (K : CoinPkg) (c : Nat) (hc : c ∈ evmSwitchChains K) :
    (GetEthereumTokenTypeByIndex K c).1 = ethereumTokenTypeSwitch K c := by
  unfold GetEthereumTokenTypeByIndex
  simp only [evmSwitch_ne_empty K c hc, if_false]


/-- Claim C21. The function `GetEthereumTokenTypeByIndex` is injective where it
succeeds and never succeeds with an empty tag: two different coin indices on
which it returns a nil error get different tags, a tag returned with a nil error
is not empty, it returns a nil error exactly on the coin indices of its table,
and on every other coin index it returns the empty tag with a non-nil error. -/
theorem GetEthereumTokenTypeByIndex_injective (K : CoinPkg) (c1 c2 : Nat) :
    ((GetEthereumTokenTypeByIndex K c1).2 = none → (GetEthereumTokenTypeByIndex K c2).2 = none →
      c1 ≠ c2 → (GetEthereumTokenTypeByIndex K c1).1 ≠ (GetEthereumTokenTypeByIndex K c2).1) ∧
    ((GetEthereumTokenTypeByIndex K c1).2 = none → (GetEthereumTokenTypeByIndex K c1).1 ≠ "") ∧
    ((GetEthereumTokenTypeByIndex K c1).2 = none ↔ c1 ∈ evmSwitchChains K) ∧
    (c1 ∉ evmSwitchChains K →
      (GetEthereumTokenTypeByIndex K c1).1 = "" ∧ (GetEthereumTokenTypeByIndex K c1).2 ≠ none) := by
  refine ⟨fun h1 h2 hne heq => ?_, fun h1 => ?_, evm_ok_iff K c1, fun h => ⟨?_, ?_⟩⟩
  · have m1 := (evm_ok_iff K c1).mp h1
    have m2 := (evm_ok_iff K c2).mp h2
    rw [evm_ok_fst K c1 m1, evm_ok_fst K c2 m2] at heq
    obtain ⟨i, hi, hki, hti⟩ := evm_position K c1 m1
    obtain ⟨j, hj, hkj, htj⟩ := evm_position K c2 m2
    rw [heq] at hti
    rcases evmTags_injective_aux ⟨i, hi⟩ ⟨j, hj⟩ with h | h
    · exact h (hti.trans htj.symm)
    · have hij : i = j := h
      subst hij
      rw [hki] at hkj
      exact hne (Option.some.inj hkj)
  · have m1 := (evm_ok_iff K c1).mp h1
    rw [evm_ok_fst K c1 m1]
    exact evmSwitch_ne_empty K c1 m1
  · unfold GetEthereumTokenTypeByIndex
    simp only [evmSwitch_empty K c1 h, if_true]
  · intro hn
    exact h ((evm_ok_iff K c1).mp hn)

/-- Instance of C21 at the coin indices of Ethereum and Ethereum Classic in
`sampleCoins`, with the tags `ERC20` and `ETC20`, and at the coin index 0, which
is outside the table. -/
theorem GetEthereumTokenTypeByIndex_injective_witness :
    (GetEthereumTokenTypeByIndex sampleCoins 60).2 = none ∧
    (GetEthereumTokenTypeByIndex sampleCoins 61).2 = none ∧
    (GetEthereumTokenTypeByIndex sampleCoins 60).1 = "ERC20" ∧
    (GetEthereumTokenTypeByIndex sampleCoins 61).1 = "ETC20" ∧
    (GetEthereumTokenTypeByIndex sampleCoins 60).1 ≠
      (GetEthereumTokenTypeByIndex sampleCoins 61).1 ∧
    0 ∉ evmSwitchChains sampleCoins ∧
    (GetEthereumTokenTypeByIndex sampleCoins 0).1 = "" ∧
    (GetEthereumTokenTypeByIndex sampleCoins 0).2 ≠ none :=
  ⟨by decide, by decide, by decide, by decide,
    (GetEthereumTokenTypeByIndex_injective sampleCoins 60 61).1 (by decide) (by decide)
      (by decide),
    by decide,
    ((GetEthereumTokenTypeByIndex_injective sampleCoins 0 0).2.2.2 (by decide)).1,
    ((GetEthereumTokenTypeByIndex_injective sampleCoins 0 0).2.2.2 (by decide)).2⟩

end types
